import Mathlib

/-!
# convert-to-pdf: scanner, converter and orchestrator

A shallow embedding of `src/utils/fileScanner.js`, `src/converters/documentConverter.js`
and `src/index.js`.

* JavaScript strings are Lean `String`s.  Only the ASCII characters `/`, `.` and the
  letters of the four supported extensions are ever inspected, so the difference
  between UTF-16 code units and Unicode scalar values plays no role.
* `path.extname` and `path.basename` belong to the Node.js runtime, not to the
  repository.  They are embedded here loop for loop after the POSIX implementation
  of Node's `path` module, because the scanner's results depend on what they compute.
* `path.join`, the file system, the child process probe and the LibreOffice binding
  are parameters (`Sys`): every operation is a state transformer on an arbitrary
  world state `σ`, returning either a value or the message of the error it throws.
* Every call that leaves the orchestrator is recorded as an `Event`, in order.
-/

namespace ConvertToPdf

/-! ## Node.js `path` (POSIX flavour) and `String` helpers -/

/-- `String.prototype.slice(start, end)` with both arguments given: a negative index
counts from the end, and both are clamped to the string. -/
def slice (s : String) (start end_ : Int) : String :=
  let len : Int := s.data.length
  let a : Int := if start < 0 then max (len + start) 0 else min start len
  let b : Int := if end_ < 0 then max (len + end_) 0 else min end_ len
  ⟨(s.data.take b.toNat).drop a.toNat⟩

/-- `String.prototype.toLowerCase`, on the ASCII letters `A`..`Z`; every other
character is left as it is.  (The full Unicode mapping differs from this one only on
non-ASCII characters, and maps none of them to a letter of a supported extension.) -/
def toLowerCase (s : String) : String :=
  ⟨s.data.map Char.toLower⟩

/-- The loop variables of `path.extname`. -/
structure ExtnameState where
  startDot : Int
  startPart : Int
  end_ : Int
  matchedSlash : Bool
  preDotState : Int
  deriving DecidableEq, Repr

/-- The `for (let i = path.length - 1; i >= 0; --i)` loop of `path.extname`.  The
argument is the path reversed: its head is the character at index `i`, and `i` is
the length of the tail. -/
def extnameLoop : List Char → ExtnameState → ExtnameState
  | [], st => st
  | code :: rest, st =>
    let i : Int := rest.length
    if code = '/' then
      -- a separator that is not part of the trailing run of separators stops the loop
      if !st.matchedSlash then { st with startPart := i + 1 }
      else extnameLoop rest st
    else
      let st1 : ExtnameState :=
        if st.end_ = -1 then { st with matchedSlash := false, end_ := i + 1 } else st
      let st2 : ExtnameState :=
        if code = '.' then
          if st1.startDot = -1 then { st1 with startDot := i }
          else if st1.preDotState ≠ 1 then { st1 with preDotState := 1 }
          else st1
        else if st1.startDot ≠ -1 then { st1 with preDotState := -1 }
        else st1
      extnameLoop rest st2

/-- `path.extname(path)`. -/
def extname (path : String) : String :=
  let st := extnameLoop path.data.reverse
    { startDot := -1, startPart := 0, end_ := -1, matchedSlash := true, preDotState := 0 }
  if st.startDot = -1 ∨ st.end_ = -1 ∨ st.preDotState = 0 ∨
      (st.preDotState = 1 ∧ st.startDot = st.end_ - 1 ∧ st.startDot = st.startPart + 1) then
    ""
  else
    slice path st.startDot st.end_

/-- The loop variables of `path.basename`. -/
structure BasenameState where
  start : Int
  end_ : Int
  matchedSlash : Bool
  extIdx : Int
  firstNonSlashEnd : Int
  deriving DecidableEq, Repr

/-- The loop of `path.basename(path, suffix)` in the branch with a suffix; the first
argument is the suffix, the second the path reversed (head = character at index `i`). -/
def basenameSuffixLoop (suffix : List Char) : List Char → BasenameState → BasenameState
  | [], st => st
  | code :: rest, st =>
    let i : Int := rest.length
    if code = '/' then
      if !st.matchedSlash then { st with start := i + 1 }
      else basenameSuffixLoop suffix rest st
    else
      let st1 : BasenameState :=
        if st.firstNonSlashEnd = -1 then
          { st with matchedSlash := false, firstNonSlashEnd := i + 1 }
        else st
      let st2 : BasenameState :=
        if 0 ≤ st1.extIdx then
          if some code = suffix.get? st1.extIdx.toNat then
            let st1d : BasenameState := { st1 with extIdx := st1.extIdx - 1 }
            if st1d.extIdx = -1 then { st1d with end_ := i } else st1d
          else
            { st1 with extIdx := -1, end_ := st1.firstNonSlashEnd }
        else st1
      basenameSuffixLoop suffix rest st2

/-- The loop of `path.basename(path)` in the branch without a usable suffix. -/
def basenameLoop : List Char → BasenameState → BasenameState
  | [], st => st
  | code :: rest, st =>
    let i : Int := rest.length
    if code = '/' then
      if !st.matchedSlash then { st with start := i + 1 }
      else basenameLoop rest st
    else if st.end_ = -1 then
      basenameLoop rest { st with matchedSlash := false, end_ := i + 1 }
    else basenameLoop rest st

/-- `path.basename(path, suffix)`. -/
def basename (path suffix : String) : String :=
  let init : BasenameState :=
    { start := 0, end_ := -1, matchedSlash := true,
      extIdx := (suffix.data.length : Int) - 1, firstNonSlashEnd := -1 }
  if 0 < suffix.data.length ∧ suffix.data.length ≤ path.data.length then
    if suffix = path then ""
    else
      let st := basenameSuffixLoop suffix.data path.data.reverse init
      let end1 : Int :=
        if st.start = st.end_ then st.firstNonSlashEnd
        else if st.end_ = -1 then path.data.length
        else st.end_
      slice path st.start end1
  else
    let st := basenameLoop path.data.reverse init
    if st.end_ = -1 then "" else slice path st.start st.end_

/-! ## `src/utils/fileScanner.js` -/

/-- The supported file extensions. -/
def SUPPORTED_EXTENSIONS : List String := [".doc", ".docx", ".ppt", ".pptx"]

/-- The file object built by `scanDirectory`. -/
structure FileDescriptor where
  name : String
  fullPath : String
  extension : String
  baseName : String
  deriving DecidableEq, Repr

/-- `FileScanner.isSupported(filename)`. -/
def isSupported (filename : String) : Bool :=
  let ext := toLowerCase (extname filename)
  SUPPORTED_EXTENSIONS.contains ext

/-- The `.filter(...)` callback of `scanDirectory`. -/
def scanFilter (file : String) : Bool :=
  let ext := toLowerCase (extname file)
  SUPPORTED_EXTENSIONS.contains ext

/-- The `.map(...)` callback of `scanDirectory`; `join` is `path.join`. -/
def scanMap (join : String → String → String) (dirPath file : String) : FileDescriptor :=
  { name := file
    fullPath := join dirPath file
    extension := toLowerCase (extname file)
    baseName := basename file (extname file) }

/-- The value of `supportedFiles` in `scanDirectory`, given what `fs.readdir` returned. -/
def supportedFiles (join : String → String → String) (dirPath : String)
    (files : List String) : List FileDescriptor :=
  (files.filter scanFilter).map (scanMap join dirPath)

/-! ## The outside world -/

/-- A Node.js `Buffer`. -/
abbrev Bytes := List Nat

/-- What the program calls outside its own files.  `join` is `path.join`;
`INPUT_DIR` and `OUTPUT_DIR` are the two module constants of `index.js` (computed
there by `path.join` from `__dirname`).  Every other field is an asynchronous
operation: it takes the world state, and gives back the new state with either the
value it resolves to or the `message` of the error it rejects with. -/
structure Sys (σ : Type) where
  join : String → String → String
  INPUT_DIR : String
  OUTPUT_DIR : String
  exec : String → σ → Except String String × σ
  ensureDir : String → σ → Except String Unit × σ
  readdir : String → σ → Except String (List String) × σ
  readFile : String → σ → Except String Bytes × σ
  libreConvert : Bytes → String → σ → Except String Bytes × σ
  writeFile : String → Bytes → σ → Except String Unit × σ

/-- The result object of `convertToPdf`; `outputFile` is present on success, `error`
on failure. -/
structure ConversionResult where
  success : Bool
  inputFile : String
  outputFile : Option String
  error : Option String
  message : String
  deriving DecidableEq, Repr

/-- The result object of `checkLibreOfficeInstallation`. -/
structure InstallationCheck where
  isAvailable : Bool
  path : Option String
  error : Option String
  deriving DecidableEq, Repr

/-- The `stats` object of `main`. -/
structure Stats where
  total : Nat
  success : Nat
  failed : Nat
  skipped : Nat
  deriving DecidableEq, Repr

deriving instance DecidableEq for Except

/-- The observable steps of a run, in the order they happen.  `logger` is a call
`logger.<method>(<text>)` of `./utils/logger`, `summary` the call
`logger.summary(stats)`, `exit` the call `process.exit(code)`.  Every other event is
recorded when the call settles and carries its arguments and its outcome: the value,
or the message of the error. -/
inductive Event where
  | logger (method text : String)
  | summary (stats : Stats)
  | exec (command : String) (result : Except String String)
  | ensureDir (path : String) (result : Except String Unit)
  | readdir (path : String) (result : Except String (List String))
  | readFile (path : String) (result : Except String Bytes)
  | libreConvert (input : Bytes) (format : String) (result : Except String Bytes)
  | writeFile (path : String) (data : Bytes) (result : Except String Unit)
  | checkLibreOfficeInstallation (result : InstallationCheck)
  | scanDirectory (dirPath : String) (result : Except String (List FileDescriptor))
  | convertToPdf (file : FileDescriptor) (outputDir : String) (result : ConversionResult)
  | exit (code : Nat)
  deriving DecidableEq

/-- The world state together with the events so far. -/
structure World (σ : Type) where
  state : σ
  trace : List Event

/-- Record one event. -/
def World.emit {σ : Type} (w : World σ) (e : Event) : World σ :=
  { w with trace := w.trace ++ [e] }

/-- Record several events. -/
def World.emits {σ : Type} (w : World σ) (es : List Event) : World σ :=
  { w with trace := w.trace ++ es }

/-- Perform one outside operation on the world state and record its event. -/
def World.call {σ α : Type} (w : World σ) (e : Except String α → Event)
    (op : σ → Except String α × σ) : Except String α × World σ :=
  ((op w.state).1, { state := (op w.state).2, trace := w.trace ++ [e (op w.state).1] })

/-! ## `src/utils/fileScanner.js`: `scanDirectory` -/

/-- `FileScanner.scanDirectory(dirPath)`: the descriptors, or the message of the
error it throws. -/
def scanDirectory {σ : Type} (S : Sys σ) (dirPath : String) (w : World σ) :
    Except String (List FileDescriptor) × World σ :=
  let r1 := w.call (.ensureDir dirPath) (S.ensureDir dirPath)
  match r1.1 with
  | .error message =>
    let thrown := "Failed to scan directory: " ++ message
    (.error thrown, r1.2.emit (.scanDirectory dirPath (.error thrown)))
  | .ok _ =>
    let r2 := r1.2.call (.readdir dirPath) (S.readdir dirPath)
    match r2.1 with
    | .error message =>
      let thrown := "Failed to scan directory: " ++ message
      (.error thrown, r2.2.emit (.scanDirectory dirPath (.error thrown)))
    | .ok files =>
      let found := supportedFiles S.join dirPath files
      (.ok found, r2.2.emit (.scanDirectory dirPath (.ok found)))

/-! ## `src/converters/documentConverter.js` -/

/-- The object returned from the `catch` block of `convertToPdf`. -/
def conversionFailure (file : FileDescriptor) (message : String) : ConversionResult :=
  { success := false
    inputFile := file.name
    outputFile := none
    error := some message
    message := file.name ++ " → Error: " ++ message }

/-- `DocumentConverter.convertToPdf(file, outputDir)`, without the event of its
return. -/
def convertToPdfBody {σ : Type} (S : Sys σ) (file : FileDescriptor) (outputDir : String)
    (w : World σ) : ConversionResult × World σ :=
  let r1 := w.call (.readFile file.fullPath) (S.readFile file.fullPath)
  match r1.1 with
  | .error message => (conversionFailure file message, r1.2)
  | .ok inputBuffer =>
    let r2 := r1.2.call (.libreConvert inputBuffer ".pdf") (S.libreConvert inputBuffer ".pdf")
    match r2.1 with
    | .error message => (conversionFailure file message, r2.2)
    | .ok pdfBuffer =>
      let outputFileName := file.baseName ++ ".pdf"
      let outputPath := S.join outputDir outputFileName
      let r3 := r2.2.call (.writeFile outputPath pdfBuffer) (S.writeFile outputPath pdfBuffer)
      match r3.1 with
      | .error message => (conversionFailure file message, r3.2)
      | .ok _ =>
        ({ success := true
           inputFile := file.name
           outputFile := some outputFileName
           error := none
           message := file.name ++ " → " ++ outputFileName }, r3.2)

/-- `DocumentConverter.convertToPdf(file, outputDir)`. -/
def convertToPdf {σ : Type} (S : Sys σ) (file : FileDescriptor) (outputDir : String)
    (w : World σ) : ConversionResult × World σ :=
  let r := convertToPdfBody S file outputDir w
  (r.1, r.2.emit (.convertToPdf file outputDir r.1))

/-- The white space and line terminators removed by `String.prototype.trim`. -/
def isTrimmed (c : Char) : Bool :=
  c.toNat ∈ [0x09, 0x0A, 0x0B, 0x0C, 0x0D, 0x20, 0xA0, 0x1680, 0x2028, 0x2029, 0x202F,
    0x205F, 0x3000, 0xFEFF] || (0x2000 ≤ c.toNat && c.toNat ≤ 0x200A)

/-- `String.prototype.trim`. -/
def trim (s : String) : String :=
  ⟨((s.data.dropWhile isTrimmed).reverse.dropWhile isTrimmed).reverse⟩

/-- `DocumentConverter.checkLibreOfficeInstallation()`. -/
def checkLibreOfficeInstallation {σ : Type} (S : Sys σ) (w : World σ) :
    InstallationCheck × World σ :=
  let command := "which libreoffice || where libreoffice"
  let r := w.call (.exec command) (S.exec command)
  match r.1 with
  | .ok stdout =>
    let libreOfficePath := trim stdout
    let result : InstallationCheck :=
      { isAvailable := true, path := some libreOfficePath, error := none }
    (result, r.2.emit (.checkLibreOfficeInstallation result))
  | .error _ =>
    let result : InstallationCheck :=
      { isAvailable := false, path := none, error := some "LibreOffice not found in system PATH" }
    (result, r.2.emit (.checkLibreOfficeInstallation result))

/-! ## `src/index.js` -/

/-- How a run of `main` ends: the final world and the exit status of the process
(`process.exit(code)`, or 0 when `main` returns). -/
structure Run (σ : Type) where
  world : World σ
  exitCode : Nat

/-- The lines logged when LibreOffice is not found, up to `process.exit(1)`. -/
def installGuidance : List Event :=
  [ .logger "error" "LibreOffice is not installed or not found in PATH",
    .logger "log" "",
    .logger "warning" "Please install LibreOffice first:",
    .logger "log" "",
    .logger "log" "  Debian/Ubuntu:",
    .logger "log" "    sudo apt install libreoffice-core libreoffice-common libreoffice-headless",
    .logger "log" "",
    .logger "log" "  Arch Linux:",
    .logger "log" "    sudo pacman -S libreoffice-fresh libreoffice-fresh-headless",
    .logger "log" "",
    .logger "log" "  Fedora/RHEL/CentOS:",
    .logger "log" "    sudo yum install libreoffice",
    .logger "log" "",
    .logger "log" "  macOS:",
    .logger "log" "    brew install libreoffice",
    .logger "log" "",
    .logger "log" "  Windows:",
    .logger "log" "    Download from https://www.libreoffice.org/download/download/",
    .logger "log" "" ]

/-- The `catch (error)` block of `main`. -/
def fatal {σ : Type} (message : String) (w : World σ) : Run σ :=
  { world := w.emits
      [ .logger "log" "", .logger "error" ("Fatal error: " ++ message), .logger "log" "",
        .exit 1 ]
    exitCode := 1 }

/-- The `for (const file of files)` loop of `main`. -/
def convertLoop {σ : Type} (S : Sys σ) : List FileDescriptor → Stats → World σ → Stats × World σ
  | [], stats, w => (stats, w)
  | file :: rest, stats, w =>
    let r := convertToPdf S file S.OUTPUT_DIR w
    if r.1.success then
      convertLoop S rest { stats with success := stats.success + 1 }
        (r.2.emit (.logger "success" r.1.message))
    else
      convertLoop S rest { stats with failed := stats.failed + 1 }
        (r.2.emit (.logger "error" r.1.message))

/-- Steps 4 and 5 of `main`: the conversion loop and the summary. -/
def convertAndSummarise {σ : Type} (S : Sys σ) (files : List FileDescriptor) (w : World σ) :
    Run σ :=
  let w1 := w.emits
    [ .logger "success"
        ("Found " ++ toString files.length ++ " file" ++
          (if files.length > 1 then "s" else "") ++ " to convert"),
      .logger "log" "",
      .logger "header" "Converting documents to PDF...",
      .logger "divider" "" ]
  let stats : Stats := { total := files.length, success := 0, failed := 0, skipped := 0 }
  let r := convertLoop S files stats w1
  let w2 := r.2.emits [ .logger "log" "", .summary r.1 ]
  let w3 :=
    if r.1.success > 0 then
      w2.emits
        [ .logger "log" "",
          .logger "success" ("Conversion complete! Check " ++ S.OUTPUT_DIR ++ " for PDFs."),
          .logger "log" "" ]
    else w2
  { world := w3, exitCode := 0 }

/-- Steps 2 to 5 of `main`: ensure the directories, scan, convert, summarise. -/
def scanAndConvert {σ : Type} (S : Sys σ) (w1 : World σ) : Run σ :=
  let e1 := w1.call (.ensureDir S.INPUT_DIR) (S.ensureDir S.INPUT_DIR)
  match e1.1 with
  | .error message => fatal message e1.2
  | .ok _ =>
    let e2 := e1.2.call (.ensureDir S.OUTPUT_DIR) (S.ensureDir S.OUTPUT_DIR)
    match e2.1 with
    | .error message => fatal message e2.2
    | .ok _ =>
      let w2 := e2.2.emit (.logger "info" "Scanning input directory...")
      let scan := scanDirectory S S.INPUT_DIR w2
      match scan.1 with
      | .error message => fatal message scan.2
      | .ok files =>
        if files.length = 0 then
          { world := scan.2.emits
              [ .logger "warning" "No files found to convert",
                .logger "log" "",
                .logger "info"
                  ("Please place your files (.doc, .docx, .ppt, .pptx) in: " ++ S.INPUT_DIR),
                .logger "log" "",
                .exit 0 ]
            exitCode := 0 }
        else convertAndSummarise S files scan.2

/-- The function `main` of `index.js`, started in world state `s` with no event yet. -/
def main {σ : Type} (S : Sys σ) (s : σ) : Run σ :=
  let w : World σ := { state := s, trace := [] }
  let w0 := w.emits
    [ .logger "header" "📄 Office Document to PDF Converter", .logger "log" "",
      .logger "info" "Checking LibreOffice installation..." ]
  let check := checkLibreOfficeInstallation S w0
  if !check.1.isAvailable then
    { world := check.2.emits (installGuidance ++ [.exit 1]), exitCode := 1 }
  else
    let w1 := check.2.emits
      [ .logger "success" ("LibreOffice found at: " ++ check.1.path.getD "undefined"),
        .logger "log" "" ]
    scanAndConvert S w1

/-! ## Reading a trace -/

/-- The calls of `convertToPdf` in a trace: each file with the result it got. -/
def convertCalls (t : List Event) : List (FileDescriptor × ConversionResult) :=
  t.filterMap fun e =>
    match e with
    | .convertToPdf file _ result => some (file, result)
    | _ => none

/-- The `stats` objects passed to `logger.summary` in a trace. -/
def summaries (t : List Event) : List Stats :=
  t.filterMap fun e =>
    match e with
    | .summary stats => some stats
    | _ => none

/-- The paths of the `fs.writeFile` calls that succeeded, with the data written. -/
def writes (t : List Event) : List (String × Bytes) :=
  t.filterMap fun e =>
    match e with
    | .writeFile path data (.ok _) => some (path, data)
    | _ => none

/-- The codes passed to `process.exit` in a trace. -/
def exits (t : List Event) : List Nat :=
  t.filterMap fun e =>
    match e with
    | .exit code => some code
    | _ => none

/-- An event of the file system, of the scanner or of the converter: anything that
is not a logger line, the installation probe or `process.exit`. -/
def Event.isWork : Event → Bool
  | .ensureDir _ _ => true
  | .readdir _ _ => true
  | .readFile _ _ => true
  | .libreConvert _ _ _ => true
  | .writeFile _ _ _ => true
  | .scanDirectory _ _ => true
  | .convertToPdf _ _ _ => true
  | _ => false

/-! ## A concrete system, to run the program on -/

/-- The state of the example system: whether LibreOffice is on the search path, the
entries of the input directory with their contents, and the files written so far. -/
structure DemoState where
  libreOffice : Bool
  input : List (String × Bytes)
  output : List (String × Bytes)
  deriving DecidableEq, Repr

/-- An example system.  Directories can always be created, the input directory lists
the entries of the state, the renderer rejects an empty document and otherwise puts
the bytes of `%PDF` in front of its input, and writing a file replaces its content. -/
def demoSys : Sys DemoState where
  join := fun a b => a ++ "/" ++ b
  INPUT_DIR := "/app/data/input"
  OUTPUT_DIR := "/app/data/output"
  exec := fun _ s =>
    (if s.libreOffice then .ok "/usr/bin/libreoffice\n" else .error "Command failed", s)
  ensureDir := fun _ s => (.ok (), s)
  readdir := fun dir s =>
    (if dir = "/app/data/input" then .ok (s.input.map Prod.fst) else .ok [], s)
  readFile := fun path s =>
    (match s.input.find? (fun e => "/app/data/input" ++ "/" ++ e.1 == path) with
     | some e => .ok e.2
     | none => .error "ENOENT: no such file or directory", s)
  libreConvert := fun input _ s =>
    (if input = [] then .error "Document is empty" else .ok (37 :: 80 :: 68 :: 70 :: input), s)
  writeFile := fun path data s =>
    (.ok (), { s with output := (path, data) :: s.output.filter (fun e => e.1 != path) })

/-! ## A concrete system: example states -/

/-- The example state of C1: four entries, two of them supported. -/
def demoMixed : DemoState :=
  { libreOffice := true
    input := [("a.doc", [1]), ("notes.txt", [2]), ("report.pdf", [3]), ("b.PPTX", [4])]
    output := [] }

/-- The example state of C2: three entries, all supported, in mixed letter case. -/
def demoAllSupported : DemoState :=
  { libreOffice := true
    input := [("a.DOC", [1]), ("b.Docx", [2]), ("c.ppt", [3])]
    output := [] }

/-- The example state of C3: one presentation with an upper-case extension. -/
def demoNotes : DemoState :=
  { libreOffice := true, input := [("Notes.PPT", [7, 7])], output := [] }

/-- The example state of C4: an empty document, which the renderer rejects. -/
def demoEmpty : DemoState :=
  { libreOffice := true, input := [("b.docx", [])], output := [] }

/-- The example state of C5: three supported files, the second one empty, and a
text file. -/
def demoThree : DemoState :=
  { libreOffice := true
    input := [("a.doc", [1]), ("b.docx", []), ("c.PPT", [3]), ("notes.txt", [9])]
    output := [] }

/-- The example state of C7: files are waiting, but LibreOffice is not installed. -/
def demoUnavailable : DemoState :=
  { libreOffice := false, input := [("a.doc", [1]), ("b.docx", [2])], output := [] }

/-- The example state of C8: an input directory without any supported file. -/
def demoNoSupported : DemoState :=
  { libreOffice := true, input := [("notes.txt", [1]), ("report.pdf", [2])], output := [] }

/-- The example state of C9: two supported files, both empty, so that every
conversion fails. -/
def demoAllFail : DemoState :=
  { libreOffice := true, input := [("a.doc", []), ("b.pptx", [])], output := [] }

/-- The example state of C10: two documents with the same stem. -/
def demoCollision : DemoState :=
  { libreOffice := true, input := [("report.doc", [1]), ("report.docx", [2])], output := [] }

/-- The example state of C8: an input directory without entries. -/
def demoEmptyDir : DemoState :=
  { libreOffice := true, input := [], output := [] }

/-- The example system with an output directory that cannot be created: `ensureDir`
fails on `OUTPUT_DIR` and succeeds on every other path. -/
def outFailSys : Sys DemoState :=
  { demoSys with
    ensureDir := fun path s =>
      (if path = "/app/data/output" then
         .error "EACCES: permission denied, mkdir /app/data/output"
       else .ok (), s) }

/-! ## Kinds of events, and counting the calls of `convertToPdf` -/

/-- An event of one of the three outside calls of `convertToPdf`. -/
def Event.isFileOp : Event → Bool
  | .readFile _ _ => true
  | .libreConvert _ _ _ => true
  | .writeFile _ _ _ => true
  | _ => false

/-- An event of the conversion loop: a file event, the return of `convertToPdf`, or
a logger line. -/
def Event.isConversion : Event → Bool
  | .readFile _ _ => true
  | .libreConvert _ _ _ => true
  | .writeFile _ _ _ => true
  | .convertToPdf _ _ _ => true
  | .logger _ _ => true
  | _ => false

/-- A logger line. -/
def Event.isLogger : Event → Bool
  | .logger _ _ => true
  | _ => false

/-- An error thrown outside `convertToPdf`: a failed `ensureDir`, a failed `readdir`,
or the error thrown by `scanDirectory`. -/
def Event.isThrown : Event → Bool
  | .ensureDir _ (.error _) => true
  | .readdir _ (.error _) => true
  | .scanDirectory _ (.error _) => true
  | _ => false

/-- A stretch of a trace made of logger lines only. -/
def Quiet (q : List Event) : Prop := ∀ e ∈ q, e.isLogger = true

/-- The number of conversions that succeeded among the calls of `convertToPdf`. -/
def succeeded (calls : List (FileDescriptor × ConversionResult)) : Nat :=
  calls.countP fun c => c.2.success

/-- The number of conversions that failed among the calls of `convertToPdf`. -/
def failures (calls : List (FileDescriptor × ConversionResult)) : Nat :=
  calls.countP fun c => !c.2.success

/-! ## What the outside world does: the conditions the theorems speak about -/

/-- The directory can be read: from world `w`, `fs.ensureDir(dirPath)` succeeds and
`fs.readdir(dirPath)` then resolves to `files`. -/
def Lists {σ : Type} (S : Sys σ) (dirPath : String) (w : World σ) (files : List String) : Prop :=
  (S.ensureDir dirPath w.state).1 = .ok () ∧
    (S.readdir dirPath (S.ensureDir dirPath w.state).2).1 = .ok files

/-- The three outside calls of `convertToPdf` succeed one after the other: the file
is read, the renderer returns `pdf`, and `pdf` is written. -/
def ConversionSucceeds {σ : Type} (S : Sys σ) (file : FileDescriptor) (outputDir : String)
    (w : World σ) (pdf : Bytes) : Prop :=
  ∃ input, (S.readFile file.fullPath w.state).1 = .ok input ∧
    (S.libreConvert input ".pdf" (S.readFile file.fullPath w.state).2).1 = .ok pdf ∧
    (S.writeFile (S.join outputDir (file.baseName ++ ".pdf")) pdf
      (S.libreConvert input ".pdf" (S.readFile file.fullPath w.state).2).2).1 = .ok ()

/-- One of the three outside calls of `convertToPdf` fails with `message`: the read,
or the renderer after a successful read, or the write after both succeeded. -/
def ConversionFailsWith {σ : Type} (S : Sys σ) (file : FileDescriptor) (outputDir : String)
    (w : World σ) (message : String) : Prop :=
  (S.readFile file.fullPath w.state).1 = .error message ∨
  (∃ input, (S.readFile file.fullPath w.state).1 = .ok input ∧
    (S.libreConvert input ".pdf" (S.readFile file.fullPath w.state).2).1 = .error message) ∨
  (∃ input pdf, (S.readFile file.fullPath w.state).1 = .ok input ∧
    (S.libreConvert input ".pdf" (S.readFile file.fullPath w.state).2).1 = .ok pdf ∧
    (S.writeFile (S.join outputDir (file.baseName ++ ".pdf")) pdf
      (S.libreConvert input ".pdf" (S.readFile file.fullPath w.state).2).2).1 = .error message)

/-- The object returned at the end of the `try` block of `convertToPdf`. -/
def conversionSuccess (file : FileDescriptor) : ConversionResult :=
  { success := true
    inputFile := file.name
    outputFile := some (file.baseName ++ ".pdf")
    error := none
    message := file.name ++ " → " ++ (file.baseName ++ ".pdf") }

/-- The initial `stats` object of `main`, for `n` files. -/
def initialStats (n : Nat) : Stats :=
  { total := n, success := 0, failed := 0, skipped := 0 }

/-- The world state in which `main` ensures the input directory: after the probe. -/
def afterProbe {σ : Type} (S : Sys σ) (s : σ) : σ :=
  (S.exec "which libreoffice || where libreoffice" s).2

/-- The world state in which `main` ensures the output directory. -/
def afterEnsureInput {σ : Type} (S : Sys σ) (s : σ) : σ :=
  (S.ensureDir S.INPUT_DIR (afterProbe S s)).2

/-- The world state in which `main` calls `scanDirectory`. -/
def afterEnsureOutput {σ : Type} (S : Sys σ) (s : σ) : σ :=
  (S.ensureDir S.OUTPUT_DIR (afterEnsureInput S s)).2

/-- The world, started in state `s`, lets `main` list the input directory: the probe
finds LibreOffice, `ensureDir` succeeds on the input and on the output directory, and
from then on the input directory can be read and lists `listing` (`ensureDir`
succeeds once more inside `scanDirectory`, and `readdir` resolves to `listing`). -/
def ReachesListing {σ : Type} (S : Sys σ) (s : σ) (listing : List String) : Prop :=
  (∃ stdout, (S.exec "which libreoffice || where libreoffice" s).1 = .ok stdout) ∧
    (S.ensureDir S.INPUT_DIR (afterProbe S s)).1 = .ok () ∧
    (S.ensureDir S.OUTPUT_DIR (afterEnsureInput S s)).1 = .ok () ∧
    Lists S S.INPUT_DIR ⟨afterEnsureOutput S s, []⟩ listing

/-! ## The shapes of a trace -/

/-- The logger lines in front of the conversion loop, for `n` files found. -/
def foundLines (n : Nat) : List Event :=
  [ .logger "success"
      ("Found " ++ toString n ++ " file" ++ (if n > 1 then "s" else "") ++ " to convert"),
    .logger "log" "",
    .logger "header" "Converting documents to PDF...",
    .logger "divider" "" ]

/-- The ways a run continues once LibreOffice has been found, as the events `rest`
added to the trace and the exit status: `ensureDir` fails on the input or on the
output directory; the scan throws because its `ensureDir` or its `readdir` fails; the
scan finds nothing; or the scan finds files, which are converted and summarised. -/
def Continues {σ : Type} (S : Sys σ) (rest : List Event) (exitCode : Nat) : Prop :=
  (∃ m q, Quiet q ∧ exitCode = 1 ∧
    rest = [.ensureDir S.INPUT_DIR (.error m)] ++ q ++ [.exit 1]) ∨
  (∃ m q, Quiet q ∧ exitCode = 1 ∧
    rest = [.ensureDir S.INPUT_DIR (.ok ()), .ensureDir S.OUTPUT_DIR (.error m)] ++ q ++
      [.exit 1]) ∨
  (∃ q3 m q, Quiet q3 ∧ Quiet q ∧ exitCode = 1 ∧
    rest = [.ensureDir S.INPUT_DIR (.ok ()), .ensureDir S.OUTPUT_DIR (.ok ())] ++ q3 ++
      [.ensureDir S.INPUT_DIR (.error m),
       .scanDirectory S.INPUT_DIR (.error ("Failed to scan directory: " ++ m))] ++ q ++
      [.exit 1]) ∨
  (∃ q3 m q, Quiet q3 ∧ Quiet q ∧ exitCode = 1 ∧
    rest = [.ensureDir S.INPUT_DIR (.ok ()), .ensureDir S.OUTPUT_DIR (.ok ())] ++ q3 ++
      [.ensureDir S.INPUT_DIR (.ok ()), .readdir S.INPUT_DIR (.error m),
       .scanDirectory S.INPUT_DIR (.error ("Failed to scan directory: " ++ m))] ++ q ++
      [.exit 1]) ∨
  (∃ q3 listing q, Quiet q3 ∧ Quiet q ∧ exitCode = 0 ∧
    supportedFiles S.join S.INPUT_DIR listing = [] ∧
    rest = [.ensureDir S.INPUT_DIR (.ok ()), .ensureDir S.OUTPUT_DIR (.ok ())] ++ q3 ++
      [.ensureDir S.INPUT_DIR (.ok ()), .readdir S.INPUT_DIR (.ok listing),
       .scanDirectory S.INPUT_DIR (.ok [])] ++ q ++ [.exit 0]) ∨
  (∃ q3 listing q4 es q5 q6, Quiet q3 ∧ Quiet q4 ∧ Quiet q5 ∧ Quiet q6 ∧ exitCode = 0 ∧
    supportedFiles S.join S.INPUT_DIR listing ≠ [] ∧
    rest = [.ensureDir S.INPUT_DIR (.ok ()), .ensureDir S.OUTPUT_DIR (.ok ())] ++ q3 ++
      [.ensureDir S.INPUT_DIR (.ok ()), .readdir S.INPUT_DIR (.ok listing),
       .scanDirectory S.INPUT_DIR (.ok (supportedFiles S.join S.INPUT_DIR listing))] ++
      q4 ++ es ++ q5 ++
      [.summary { total := (supportedFiles S.join S.INPUT_DIR listing).length,
                  success := succeeded (convertCalls es),
                  failed := failures (convertCalls es), skipped := 0 }] ++ q6 ∧
    (∀ e ∈ es, e.isConversion = true) ∧
    (convertCalls es).map Prod.fst = supportedFiles S.join S.INPUT_DIR listing ∧
    (writes es).map Prod.fst =
      ((convertCalls es).filter fun c => c.2.success).map
        fun c => S.join S.OUTPUT_DIR (c.1.baseName ++ ".pdf"))

/-! ## Loop variables of `path.extname` -/

/-- The initial loop variables of `path.extname`. -/
def extnameInit : ExtnameState :=
  { startDot := -1, startPart := 0, end_ := -1, matchedSlash := true, preDotState := 0 }

/-- The value of `preDotState` once the loop has passed the characters in front of
the last dot: untouched when there is none, otherwise decided by the first one. -/
def preDotStateOf : List Char → Int
  | [] => 0
  | c :: _ => if c = '.' then 1 else -1

/-! # Theorems -/

/-! ## `path.extname` on names without a separator -/

theorem extnameLoop_beforeDot (l tail : List Char) (st : ExtnameState)
    (hs : '/' ∉ l) (hd : '.' ∉ l) (h1 : st.startDot = -1) :
    extnameLoop (l ++ tail) st =
      extnameLoop tail
        (if l = [] then st
         else if st.end_ = -1 then
           { st with matchedSlash := false, end_ := (l.length : Int) + tail.length }
         else st) := by
  induction l generalizing st with
  | nil => simp
  | cons c l ih =>
    have hc1 : c ≠ '/' := fun h => hs (by simp [h])
    have hc2 : c ≠ '.' := fun h => hd (by simp [h])
    have hs2 : '/' ∉ l := fun h => hs (List.mem_cons_of_mem _ h)
    have hd2 : '.' ∉ l := fun h => hd (List.mem_cons_of_mem _ h)
    simp only [List.cons_append, extnameLoop, hc1, hc2, if_false, List.length_append,
      List.append_eq]
    by_cases he : st.end_ = -1
    · simp only [he, if_true, h1, ne_eq, not_true_eq_false, if_false]
      rw [ih _ hs2 hd2 rfl]
      have hne : ((l.length : Int) + tail.length) + 1 ≠ -1 := by omega
      by_cases hl : l = []
      · subst hl
        simp [add_comm]
      · simp only [hl, if_false, List.cons_ne_nil, Nat.cast_add, hne, List.length_cons]
        congr 2
        push_cast
        ring
    · simp only [he, if_false, h1, ne_eq, not_true_eq_false]
      rw [ih _ hs2 hd2 h1]
      simp [he]

theorem extnameLoop_afterDot (l : List Char) (c0 : Char) (st : ExtnameState)
    (hs : '/' ∉ l) (hc0 : c0 ≠ '/') (h1 : st.startDot ≠ -1) (h2 : st.end_ ≠ -1) :
    extnameLoop (l ++ [c0]) st =
      { st with preDotState := if c0 = '.' then 1 else -1 } := by
  induction l generalizing st with
  | nil =>
    simp only [List.nil_append, extnameLoop, hc0, if_false, h2, h1, ne_eq, not_false_eq_true,
      if_true]
    by_cases hd : c0 = '.'
    · by_cases hp : st.preDotState = 1
      · cases st
        simp_all
      · simp [hd, hp]
    · simp [hd]
  | cons c l ih =>
    have hc1 : c ≠ '/' := fun h => hs (by simp [h])
    have hs2 : '/' ∉ l := fun h => hs (List.mem_cons_of_mem _ h)
    simp only [List.cons_append, extnameLoop, hc1, if_false, h2, h1, ne_eq, not_false_eq_true,
      if_true, List.append_eq]
    by_cases hd : c = '.'
    · by_cases hp : st.preDotState = 1
      · simp only [hd, hp, if_true, not_true_eq_false, if_false]
        exact ih st hs2 h1 h2
      · simp only [hd, hp, if_true, not_false_eq_true]
        exact ih ⟨st.startDot, st.startPart, st.end_, st.matchedSlash, 1⟩ hs2 h1 h2
    · simp only [hd, if_false]
      exact ih ⟨st.startDot, st.startPart, st.end_, st.matchedSlash, -1⟩ hs2 h1 h2

theorem extnameLoop_stem (pre : List Char) (n : Int) (st : ExtnameState)
    (hs : '/' ∉ pre) (e1 : st.startDot = pre.length) (e2 : st.startPart = 0)
    (e3 : st.end_ = n) (hn : n ≠ -1) (e4 : st.matchedSlash = false) (e5 : st.preDotState = 0) :
    extnameLoop pre.reverse st =
      { startDot := pre.length, startPart := 0, end_ := n, matchedSlash := false,
        preDotState := preDotStateOf pre } := by
  cases pre with
  | nil => cases st; simp_all [extnameLoop, preDotStateOf]
  | cons c pre =>
    have hc : c ≠ '/' := fun h => hs (by simp [h])
    have hp : '/' ∉ pre.reverse := fun h => hs (by simp [List.mem_reverse.mp h])
    rw [List.reverse_cons, extnameLoop_afterDot _ _ _ hp hc (by rw [e1]; simp; omega)
      (by rw [e3]; exact hn)]
    cases st
    simp_all [preDotStateOf]

/-- The loop variables of `path.extname` at the end of the loop, for a name without
separator whose last dot is at index `pre.length`. -/
theorem extnameLoop_lastDot (pre e : List Char) (hs : '/' ∉ pre ++ '.' :: e) (hd : '.' ∉ e) :
    extnameLoop (pre ++ '.' :: e).reverse extnameInit =
      { startDot := pre.length, startPart := 0, end_ := (pre.length : Int) + 1 + e.length,
        matchedSlash := false,
        preDotState := preDotStateOf pre } := by
  have hs1 : '/' ∉ e.reverse := fun h => hs (by simp [List.mem_reverse.mp h])
  have hd1 : '.' ∉ e.reverse := fun h => hd (List.mem_reverse.mp h)
  have hs0 : '/' ∉ pre := fun h => hs (by simp [h])
  have hrev : (pre ++ '.' :: e).reverse = e.reverse ++ '.' :: pre.reverse := by simp
  rw [hrev, extnameLoop_beforeDot _ _ _ hs1 hd1 rfl]
  have hn : ((pre.length : Int) + 1 + e.length) ≠ -1 := by omega
  by_cases he : e = []
  · subst he
    simp only [List.reverse_nil, if_true, extnameLoop, extnameInit, List.length_reverse,
      Char.reduceEq, if_false, List.length_nil]
    refine (extnameLoop_stem pre ((pre.length : Int) + 1 + ([] : List Char).length) _ hs0
      ?_ ?_ ?_ hn ?_ ?_).trans ?_ <;> simp
  · have he2 : e.reverse ≠ [] := by simpa using he
    have hx : ((e.length : Int) + ((pre.length + 1 : Nat) : Int)) ≠ -1 := by omega
    simp only [he2, if_false, extnameInit, if_true, extnameLoop, List.length_reverse,
      Char.reduceEq, List.length_cons, hx]
    refine (extnameLoop_stem pre ((pre.length : Int) + 1 + e.length) _ hs0
      ?_ ?_ ?_ hn ?_ ?_).trans ?_ <;> simp
    ring

theorem slice_suffix (pre s : List Char) :
    slice ⟨pre ++ s⟩ pre.length ((pre.length : Int) + s.length) = ⟨s⟩ := by
  have h1 : ¬ ((pre.length : Int) < 0) := by omega
  have h2 : ¬ ((pre.length : Int) + s.length < 0) := by omega
  simp only [slice, h1, h2, if_false, List.length_append, Nat.cast_add]
  have h3 : (min ((pre.length : Int) + s.length) ((pre.length : Int) + s.length)).toNat
      = pre.length + s.length := by simp; omega
  have h4 : (min (pre.length : Int) ((pre.length : Int) + s.length)).toNat = pre.length := by
    rw [min_eq_left (by omega)]; simp
  rw [h3, h4]
  simp [List.take_append_eq_append_take]

theorem slice_stem (pre s : List Char) :
    slice ⟨pre ++ s⟩ 0 pre.length = ⟨pre⟩ := by
  have h2 : ¬ ((pre.length : Int) < 0) := by omega
  simp only [slice, h2, if_false, List.length_append, Nat.cast_add, lt_self_iff_false]
  have h3 : (min (pre.length : Int) ((pre.length : Int) + s.length)).toNat = pre.length := by
    rw [min_eq_left (by omega)]; simp
  have h4 : (min (0 : Int) ((pre.length : Int) + s.length)).toNat = 0 := by
    rw [min_eq_left (by omega)]; simp
  rw [h3, h4]
  simp [List.take_append_eq_append_take]

/-- On a name without separator, `path.extname` is the part from the last dot on,
unless that dot is the first character or the name is `..`. -/
theorem extname_lastDot (pre e : List Char) (hs : '/' ∉ pre ++ '.' :: e) (hd : '.' ∉ e) :
    extname ⟨pre ++ '.' :: e⟩ =
      if pre = [] ∨ (pre = ['.'] ∧ e = []) then "" else ⟨'.' :: e⟩ := by
  have hloop := extnameLoop_lastDot pre e hs hd
  rw [extnameInit] at hloop
  simp only [extname, hloop]
  have h1 : ¬ ((pre.length : Int) = -1) := by omega
  have h2 : ¬ ((pre.length : Int) + 1 + e.length = -1) := by omega
  simp only [h1, h2, false_or]
  cases pre with
  | nil => simp [preDotStateOf]
  | cons c pre =>
    have hslice : slice ⟨(c :: pre) ++ '.' :: e⟩ ((c :: pre).length : Int)
        (((c :: pre).length : Int) + 1 + e.length) = ⟨'.' :: e⟩ := by
      have h := slice_suffix (c :: pre) ('.' :: e)
      have hl : (((c :: pre).length : Int) + (('.' :: e).length : Int))
          = ((c :: pre).length : Int) + 1 + e.length := by
        simp only [List.length_cons, Nat.cast_add, Nat.cast_one]
        ring
      rw [hl] at h
      exact h
    by_cases hx : (c :: pre = [] ∨ c :: pre = ['.'] ∧ e = [])
    · rw [if_pos hx, if_pos]
      right
      rcases hx with hx | ⟨hx, he⟩
      · cases hx
      · cases hx
        subst he
        simp [preDotStateOf]
    · rw [if_neg hx, if_neg, hslice]
      intro hcon
      apply hx
      right
      rcases hcon with h0 | ⟨h3, h4, h5⟩
      · exfalso
        simp only [preDotStateOf] at h0
        split_ifs at h0
        omega
      · have hc : c = '.' := by
          by_contra hc
          simp only [preDotStateOf, hc, if_false] at h3
          omega
        simp only [List.length_cons, Nat.cast_add, Nat.cast_one] at h4 h5
        have hp : pre.length = 0 := by omega
        have he : e.length = 0 := by omega
        rw [hc, List.length_eq_zero.mp hp, List.length_eq_zero.mp he]
        exact ⟨rfl, rfl⟩

/-- On a name without separator and without dot, `path.extname` is empty. -/
theorem extname_noDot (p : List Char) (hs : '/' ∉ p) (hd : '.' ∉ p) : extname ⟨p⟩ = "" := by
  have hs1 : '/' ∉ p.reverse := fun h => hs (List.mem_reverse.mp h)
  have hd1 : '.' ∉ p.reverse := fun h => hd (List.mem_reverse.mp h)
  have h := extnameLoop_beforeDot p.reverse [] extnameInit hs1 hd1 rfl
  rw [List.append_nil] at h
  have hsd : (extnameLoop p.reverse extnameInit).startDot = -1 := by
    rw [h]
    simp only [extnameLoop]
    split_ifs <;> rfl
  have hsd2 : (extnameLoop p.reverse
      { startDot := -1, startPart := 0, end_ := -1, matchedSlash := true, preDotState := 0 }).startDot
      = -1 := hsd
  simp [extname, hsd2]

/-- Every list containing a dot splits at its last dot. -/
theorem split_lastDot (p : List Char) (h : '.' ∈ p) :
    ∃ pre e, p = pre ++ '.' :: e ∧ '.' ∉ e := by
  induction p with
  | nil => simp at h
  | cons c p ih =>
    by_cases hp : '.' ∈ p
    · obtain ⟨pre, e, rfl, he⟩ := ih hp
      exact ⟨c :: pre, e, rfl, he⟩
    · have hc : c = '.' := by
        rcases List.mem_cons.mp h with h | h
        · exact h.symm
        · exact absurd h hp
      exact ⟨[], p, by simp [hc], hp⟩

/-- A non-empty extension of a name without separator: the name is a non-empty
stem followed by the extension, which starts at the last dot of the name. -/
theorem extname_split (name : String) (hs : '/' ∉ name.data) (hne : extname name ≠ "") :
    ∃ pre e, name.data = pre ++ '.' :: e ∧ '.' ∉ e ∧ pre ≠ [] ∧ extname name = ⟨'.' :: e⟩ := by
  obtain ⟨p⟩ := name
  by_cases hd : '.' ∈ p
  · obtain ⟨pre, e, rfl, he⟩ := split_lastDot p hd
    have hx := extname_lastDot pre e hs he
    by_cases hc : pre = [] ∨ (pre = ['.'] ∧ e = [])
    · rw [if_pos hc] at hx
      exact absurd hx hne
    · rw [if_neg hc] at hx
      exact ⟨pre, e, rfl, he, fun h => hc (Or.inl h), hx⟩
  · exact absurd (extname_noDot p hs hd) hne

/-! ## `path.basename` with the extension as suffix -/

/-- Once the suffix has been dealt with, the loop changes nothing on characters that
are not separators. -/
theorem basenameSuffixLoop_rest (suffix l : List Char) (st : BasenameState)
    (hs : '/' ∉ l) (h1 : st.extIdx < 0) (h2 : st.firstNonSlashEnd ≠ -1) :
    basenameSuffixLoop suffix l st = st := by
  induction l with
  | nil => rfl
  | cons c l ih =>
    have hc1 : c ≠ '/' := fun h => hs (by simp [h])
    have hs2 : '/' ∉ l := fun h => hs (List.mem_cons_of_mem _ h)
    have h3 : ¬ (0 ≤ st.extIdx) := by omega
    simp only [basenameSuffixLoop, hc1, if_false, h2, h3]
    exact ih hs2

/-- While the characters read are those of the suffix, the loop only counts
`extIdx` down; it sets `end` when the whole suffix has been read. -/
theorem basenameSuffixLoop_match (rb z tail : List Char) (st : BasenameState)
    (hs : '/' ∉ rb) (hne : rb ≠ []) (h1 : st.extIdx = (rb.length : Int) - 1) :
    basenameSuffixLoop (rb.reverse ++ z) (rb ++ tail) st =
      basenameSuffixLoop (rb.reverse ++ z) tail
        { start := st.start, end_ := tail.length,
          matchedSlash := if st.firstNonSlashEnd = -1 then false else st.matchedSlash,
          extIdx := -1,
          firstNonSlashEnd :=
            if st.firstNonSlashEnd = -1 then (rb.length : Int) + tail.length
            else st.firstNonSlashEnd } := by
  induction rb generalizing z st with
  | nil => exact absurd rfl hne
  | cons c rb ih =>
    have hc1 : c ≠ '/' := fun h => hs (by simp [h])
    have hs2 : '/' ∉ rb := fun h => hs (List.mem_cons_of_mem _ h)
    have hget : ((c :: rb).reverse ++ z).get? rb.length = some c := by
      rw [List.get?_eq_getElem?, List.reverse_cons, List.append_assoc,
        List.getElem?_append_right (by simp)]
      simp
    have hidx : st.extIdx = rb.length := by
      rw [h1]; simp
    have hnn : (0 : Int) ≤ rb.length := by omega
    have hsuf : (c :: rb).reverse ++ z = rb.reverse ++ (c :: z) := by simp
    simp only [List.cons_append, basenameSuffixLoop, hc1, if_false, List.append_eq]
    by_cases hf : st.firstNonSlashEnd = -1
    · simp only [hf, if_true, hidx, hnn, Int.toNat_ofNat, hget]
      by_cases hrb : rb = []
      · subst hrb
        simp [add_comm]
      · have hx : ¬ ((rb.length : Int) - 1 = -1) := by
          have := List.length_pos.mpr hrb
          omega
        simp only [hx, if_false]
        rw [hsuf, ih (c :: z) _ hs2 hrb rfl]
        simp only [List.length_cons, List.length_append, Nat.cast_add, Nat.cast_one]
        congr 2
        split_ifs <;> omega
    · simp only [hf, if_false, hidx, hnn, Int.toNat_ofNat, hget, if_true]
      by_cases hrb : rb = []
      · subst hrb
        simp
      · have hx : ¬ ((rb.length : Int) - 1 = -1) := by
          have := List.length_pos.mpr hrb
          omega
        simp only [hx, if_false]
        rw [hsuf, ih (c :: z) _ hs2 hrb rfl]
        simp only [hf, if_false]

/-- On a name without separator that ends in a non-empty suffix and is longer than
it, `path.basename(name, suffix)` is the name without the suffix. -/
theorem basename_suffix (pre sfx : List Char) (hs : '/' ∉ pre ++ sfx) (hp : pre ≠ [])
    (hx : sfx ≠ []) : basename ⟨pre ++ sfx⟩ ⟨sfx⟩ = ⟨pre⟩ := by
  have hs1 : '/' ∉ sfx.reverse := fun h => hs (by simp [List.mem_reverse.mp h])
  have hs2 : '/' ∉ pre.reverse := fun h => hs (by simp [List.mem_reverse.mp h])
  have hlen : 0 < sfx.length ∧ sfx.length ≤ (pre ++ sfx).length := by
    refine ⟨List.length_pos.mpr hx, ?_⟩
    simp
  have hneq : (⟨sfx⟩ : String) ≠ ⟨pre ++ sfx⟩ := by
    intro h
    have h2 : sfx.length = (pre ++ sfx).length :=
      congrArg (fun t : String => t.data.length) h
    have := List.length_pos.mpr hp
    rw [List.length_append] at h2
    omega
  have hloop := basenameSuffixLoop_match sfx.reverse [] pre.reverse
    { start := 0, end_ := -1, matchedSlash := true, extIdx := (sfx.length : Int) - 1,
      firstNonSlashEnd := -1 } hs1 (by simpa using hx) (by simp)
  simp only [List.reverse_reverse, List.append_nil, if_true, List.length_reverse] at hloop
  rw [basenameSuffixLoop_rest _ _ _ hs2 (by simp) (by simp; omega)] at hloop
  simp only [basename, hlen, and_self, if_true, hneq, if_false, List.reverse_append, hloop]
  have hpl : ¬ ((0 : Int) = pre.length) := by
    have := List.length_pos.mpr hp
    omega
  have hpl2 : ¬ ((pre.length : Int) = -1) := by omega
  simp only [hpl, hpl2, if_false]
  exact slice_stem pre sfx

/-! ## The scanner -/

theorem mem_supported_iff (ext : String) :
    ext ∈ SUPPORTED_EXTENSIONS ↔ ext = ".doc" ∨ ext = ".docx" ∨ ext = ".ppt" ∨ ext = ".pptx" := by
  simp [SUPPORTED_EXTENSIONS]

theorem isSupported_iff (name : String) :
    isSupported name = true ↔ toLowerCase (extname name) ∈ SUPPORTED_EXTENSIONS := by
  simp [isSupported]

theorem scanFilter_eq_isSupported (name : String) : scanFilter name = isSupported name := rfl

/-- When the directory can be read, `scanDirectory` returns `supportedFiles`. -/
theorem scanDirectory_ok {σ : Type} (S : Sys σ) (dirPath : String) (w : World σ)
    (files : List String) (h : Lists S dirPath w files) :
    (scanDirectory S dirPath w).1 = .ok (supportedFiles S.join dirPath files) := by
  obtain ⟨h1, h2⟩ := h
  simp only [scanDirectory, World.call, h1, h2]

theorem supportedFiles_names (join : String → String → String) (dirPath : String)
    (files : List String) :
    (supportedFiles join dirPath files).map (fun d => d.name) = files.filter isSupported := by
  simp only [supportedFiles, List.map_map]
  have : ((fun d : FileDescriptor => d.name) ∘ scanMap join dirPath) = id := by
    funext f
    rfl
  rw [this, List.map_id]
  rfl

theorem supported_lowercase (ext : String) (h : ext ∈ SUPPORTED_EXTENSIONS) :
    toLowerCase ext = ext ∧ ∀ c ∈ ext.data, c.isUpper = false := by
  rcases (mem_supported_iff ext).mp h with rfl | rfl | rfl | rfl <;> decide

theorem supported_extname_ne (name : String) (h : isSupported name = true) :
    extname name ≠ "" := by
  intro he
  rw [isSupported_iff, he] at h
  revert h
  decide

/-! ## Claims about the scanner -/

/-- C1: whenever the directory can be read and lists `files`, `scanDirectory` returns
descriptors whose names are, in listing order, exactly the entries for which
`isSupported` is true; `isSupported` agrees with the filter of the scan on every
name; an entry is kept if and only if its lowercased extension is one of `.doc`,
`.docx`, `.ppt`, `.pptx`, so `notes.txt` and `report.pdf` are excluded. -/
theorem scanDirectory_names_eq_filter_isSupported {σ : Type} (S : Sys σ) (dirPath : String)
    (w : World σ) (files : List String) (h : Lists S dirPath w files) :
    (∀ name, isSupported name = scanFilter name) ∧
    (∃ found, (scanDirectory S dirPath w).1 = .ok found ∧
      found.map (fun d => d.name) = files.filter isSupported ∧
      (∀ name ∈ files, name ∈ found.map (fun d => d.name) ↔
        toLowerCase (extname name) ∈ SUPPORTED_EXTENSIONS) ∧
      (∀ name ∈ files, name ∈ found.map (fun d => d.name) ↔
        (toLowerCase (extname name) = ".doc" ∨ toLowerCase (extname name) = ".docx" ∨
          toLowerCase (extname name) = ".ppt" ∨ toLowerCase (extname name) = ".pptx"))) ∧
    isSupported "notes.txt" = false ∧ isSupported "report.pdf" = false := by
  refine ⟨fun _ => rfl, ⟨_, scanDirectory_ok S dirPath w files h, ?_, ?_, ?_⟩, by decide,
    by decide⟩
  · exact supportedFiles_names S.join dirPath files
  · intro name hn
    rw [supportedFiles_names, List.mem_filter, isSupported_iff]
    exact ⟨fun hx => hx.2, fun hx => ⟨hn, hx⟩⟩
  · intro name hn
    rw [supportedFiles_names, List.mem_filter, isSupported_iff, mem_supported_iff]
    exact ⟨fun hx => hx.2, fun hx => ⟨hn, hx⟩⟩

theorem scanDirectory_names_eq_filter_isSupported_witness :
    Lists demoSys "/app/data/input" ⟨demoMixed, []⟩
        ["a.doc", "notes.txt", "report.pdf", "b.PPTX"] ∧
      ∃ found, (scanDirectory demoSys "/app/data/input" ⟨demoMixed, []⟩).1 = .ok found ∧
        found.map (fun d => d.name) = ["a.doc", "b.PPTX"] :=
  ⟨⟨rfl, rfl⟩,
    (scanDirectory_names_eq_filter_isSupported demoSys "/app/data/input" ⟨demoMixed, []⟩
      ["a.doc", "notes.txt", "report.pdf", "b.PPTX"] ⟨rfl, rfl⟩).2.1.imp
      fun _ hf => ⟨hf.1, hf.2.1.trans (by decide)⟩⟩

/-- C2: when the directory can be read and every entry has a supported extension in
any letter case, `scanDirectory` returns as many descriptors as there are entries,
and the `extension` of every descriptor is lowercase and one of `.doc`, `.docx`,
`.ppt`, `.pptx`. -/
theorem scanDirectory_all_supported {σ : Type} (S : Sys σ) (dirPath : String)
    (w : World σ) (files : List String) (h : Lists S dirPath w files)
    (hall : ∀ name ∈ files, toLowerCase (extname name) ∈ SUPPORTED_EXTENSIONS) :
    ∃ found, (scanDirectory S dirPath w).1 = .ok found ∧
      found.length = files.length ∧
      ∀ d ∈ found, toLowerCase d.extension = d.extension ∧
        (∀ c ∈ d.extension.data, c.isUpper = false) ∧
        d.extension ∈ SUPPORTED_EXTENSIONS := by
  refine ⟨_, scanDirectory_ok S dirPath w files h, ?_, ?_⟩
  · have hf : files.filter scanFilter = files := by
      rw [List.filter_eq_self]
      intro name hn
      exact (isSupported_iff name).mpr (hall name hn)
    simp [supportedFiles, hf]
  · intro d hd
    simp only [supportedFiles, List.mem_map, List.mem_filter] at hd
    obtain ⟨name, ⟨_, hsup⟩, rfl⟩ := hd
    have hmem : toLowerCase (extname name) ∈ SUPPORTED_EXTENSIONS :=
      (isSupported_iff name).mp hsup
    exact ⟨(supported_lowercase _ hmem).1, (supported_lowercase _ hmem).2, hmem⟩

theorem scanDirectory_all_supported_witness :
    Lists demoSys "/app/data/input" ⟨demoAllSupported, []⟩ ["a.DOC", "b.Docx", "c.ppt"] ∧
      (∀ name ∈ ["a.DOC", "b.Docx", "c.ppt"],
        toLowerCase (extname name) ∈ SUPPORTED_EXTENSIONS) ∧
      ∃ found, (scanDirectory demoSys "/app/data/input" ⟨demoAllSupported, []⟩).1 = .ok found ∧
        found.length = 3 ∧
        ∀ d ∈ found, toLowerCase d.extension = d.extension ∧
          (∀ c ∈ d.extension.data, c.isUpper = false) ∧
          d.extension ∈ SUPPORTED_EXTENSIONS :=
  ⟨⟨rfl, rfl⟩, by decide,
    scanDirectory_all_supported demoSys "/app/data/input" ⟨demoAllSupported, []⟩
      ["a.DOC", "b.Docx", "c.ppt"] ⟨rfl, rfl⟩ (by decide)⟩

/-! ## The converter -/

/-- What one call of `convertToPdf` does: it adds file events and the event of its
return to the trace, and it either succeeds, having written the renderer's output to
`outputDir/baseName.pdf`, or returns the failure object, having written nothing. -/
theorem convertToPdf_spec {σ : Type} (S : Sys σ) (file : FileDescriptor) (outputDir : String)
    (w : World σ) :
    ∃ es, (convertToPdf S file outputDir w).2.trace =
        w.trace ++ es ++ [.convertToPdf file outputDir (convertToPdf S file outputDir w).1] ∧
      (∀ e ∈ es, e.isFileOp = true) ∧
      ((∃ pdf, ConversionSucceeds S file outputDir w pdf ∧
          (convertToPdf S file outputDir w).1 = conversionSuccess file ∧
          writes es = [(S.join outputDir (file.baseName ++ ".pdf"), pdf)]) ∨
        (∃ message, ConversionFailsWith S file outputDir w message ∧
          (convertToPdf S file outputDir w).1 = conversionFailure file message ∧
          writes es = [])) := by
  rcases h1 : (S.readFile file.fullPath w.state).1 with m | input
  · refine ⟨[.readFile file.fullPath (.error m)], ?_, ?_, Or.inr ⟨m, Or.inl h1, ?_, rfl⟩⟩
    · simp [convertToPdf, convertToPdfBody, World.call, World.emit, h1]
    · simp [Event.isFileOp]
    · simp [convertToPdf, convertToPdfBody, World.call, h1]
  · rcases h2 : (S.libreConvert input ".pdf" (S.readFile file.fullPath w.state).2).1 with m | pdf
    · refine ⟨[.readFile file.fullPath (.ok input), .libreConvert input ".pdf" (.error m)],
        ?_, ?_, Or.inr ⟨m, Or.inr (Or.inl ⟨input, h1, h2⟩), ?_, rfl⟩⟩
      · simp [convertToPdf, convertToPdfBody, World.call, World.emit, h1, h2]
      · simp [Event.isFileOp]
      · simp [convertToPdf, convertToPdfBody, World.call, h1, h2]
    · rcases h3 : (S.writeFile (S.join outputDir (file.baseName ++ ".pdf")) pdf
          (S.libreConvert input ".pdf" (S.readFile file.fullPath w.state).2).2).1 with m | u
      · refine ⟨[.readFile file.fullPath (.ok input), .libreConvert input ".pdf" (.ok pdf),
            .writeFile (S.join outputDir (file.baseName ++ ".pdf")) pdf (.error m)],
          ?_, ?_, Or.inr ⟨m, Or.inr (Or.inr ⟨input, pdf, h1, h2, h3⟩), ?_, rfl⟩⟩
        · simp [convertToPdf, convertToPdfBody, World.call, World.emit, h1, h2, h3]
        · simp [Event.isFileOp]
        · simp [convertToPdf, convertToPdfBody, World.call, h1, h2, h3]
      · refine ⟨[.readFile file.fullPath (.ok input), .libreConvert input ".pdf" (.ok pdf),
            .writeFile (S.join outputDir (file.baseName ++ ".pdf")) pdf (.ok u)],
          ?_, ?_, Or.inl ⟨pdf, ⟨input, h1, h2, h3⟩, ?_, rfl⟩⟩
        · simp [convertToPdf, convertToPdfBody, World.call, World.emit, h1, h2, h3]
        · simp [Event.isFileOp]
        · simp [convertToPdf, convertToPdfBody, World.call, h1, h2, h3, conversionSuccess]

theorem writes_append (a b : List Event) : writes (a ++ b) = writes a ++ writes b := by
  simp [writes, List.filterMap_append]

theorem convertToPdf_of_succeeds {σ : Type} (S : Sys σ) (file : FileDescriptor)
    (outputDir : String) (w : World σ) (pdf : Bytes)
    (h : ConversionSucceeds S file outputDir w pdf) :
    (convertToPdf S file outputDir w).1 = conversionSuccess file := by
  obtain ⟨input, h1, h2, h3⟩ := h
  simp [convertToPdf, convertToPdfBody, World.call, h1, h2, h3, conversionSuccess]

theorem convertToPdf_of_fails {σ : Type} (S : Sys σ) (file : FileDescriptor)
    (outputDir : String) (w : World σ) (message : String)
    (h : ConversionFailsWith S file outputDir w message) :
    (convertToPdf S file outputDir w).1 = conversionFailure file message := by
  rcases h with h1 | ⟨input, h1, h2⟩ | ⟨input, pdf, h1, h2, h3⟩
  · simp [convertToPdf, convertToPdfBody, World.call, h1]
  · simp [convertToPdf, convertToPdfBody, World.call, h1, h2]
  · simp [convertToPdf, convertToPdfBody, World.call, h1, h2, h3]

/-- The stem and the extension of a supported name without separator. -/
theorem scanMap_baseName (join : String → String → String) (dirPath name : String)
    (hs : '/' ∉ name.data) (hsup : isSupported name = true) :
    name = (scanMap join dirPath name).baseName ++ extname name ∧
      (scanMap join dirPath name).baseName ≠ "" ∧
      ∃ e : List Char, extname name = ⟨'.' :: e⟩ ∧ '.' ∉ e := by
  obtain ⟨pre, e, hname, he, hpre, hext⟩ :=
    extname_split name hs (supported_extname_ne name hsup)
  have hb : basename name (extname name) = ⟨pre⟩ := by
    have hn : name = ⟨pre ++ '.' :: e⟩ := by
      cases name
      simp_all
    rw [hext]
    rw [hn] at hs ⊢
    exact basename_suffix pre ('.' :: e) hs hpre (by simp)
  refine ⟨?_, ?_, e, hext, he⟩
  · show name = basename name (extname name) ++ extname name
    rw [hb, hext]
    cases name
    simp_all [String.ext_iff]
  · show basename name (extname name) ≠ ""
    rw [hb]
    intro h
    exact hpre (congrArg String.data h)

/-- What a successful call of `convertToPdf` does to the world: it returns the success
object, the world state is the one left by `fs.writeFile` after the read and the
renderer, and the trace gains the read, the renderer call, the write of the renderer's
output at `outputDir` joined with `baseName + ".pdf"`, and the return. -/
theorem convertToPdf_success_run {σ : Type} (S : Sys σ) (file : FileDescriptor)
    (outputDir : String) (w : World σ) (input pdf : Bytes)
    (h1 : (S.readFile file.fullPath w.state).1 = .ok input)
    (h2 : (S.libreConvert input ".pdf" (S.readFile file.fullPath w.state).2).1 = .ok pdf)
    (h3 : (S.writeFile (S.join outputDir (file.baseName ++ ".pdf")) pdf
      (S.libreConvert input ".pdf" (S.readFile file.fullPath w.state).2).2).1 = .ok ()) :
    convertToPdf S file outputDir w =
      (conversionSuccess file,
        { state := (S.writeFile (S.join outputDir (file.baseName ++ ".pdf")) pdf
            (S.libreConvert input ".pdf" (S.readFile file.fullPath w.state).2).2).2
          trace := w.trace ++
            [.readFile file.fullPath (.ok input), .libreConvert input ".pdf" (.ok pdf),
             .writeFile (S.join outputDir (file.baseName ++ ".pdf")) pdf (.ok ()),
             .convertToPdf file outputDir (conversionSuccess file)] }) := by
  simp [convertToPdf, convertToPdfBody, World.call, World.emit, h1, h2, h3, conversionSuccess]

/-- A call of `convertToPdf` that returns `success = true` read the file, got `pdf`
from the renderer and wrote it. -/
theorem convertToPdf_succeeds_of_success {σ : Type} (S : Sys σ) (file : FileDescriptor)
    (outputDir : String) (w : World σ)
    (h : (convertToPdf S file outputDir w).1.success = true) :
    ∃ input pdf, (S.readFile file.fullPath w.state).1 = .ok input ∧
      (S.libreConvert input ".pdf" (S.readFile file.fullPath w.state).2).1 = .ok pdf ∧
      (S.writeFile (S.join outputDir (file.baseName ++ ".pdf")) pdf
        (S.libreConvert input ".pdf" (S.readFile file.fullPath w.state).2).2).1 = .ok () := by
  obtain ⟨_, _, _, hcase⟩ := convertToPdf_spec S file outputDir w
  rcases hcase with ⟨pdf, ⟨input, h1, h2, h3⟩, _, _⟩ | ⟨m, _, hres, _⟩
  · exact ⟨input, pdf, h1, h2, h3⟩
  · rw [hres] at h
    simp [conversionFailure] at h

/-! ## Claims about naming and failures -/

/-- C3: for every file name without separator whose extension is supported in any
letter case, the descriptor built by the scan has `baseName` equal to the name with
its final extension removed (the name is `baseName` followed by the extension, which
starts at the last dot).  Whenever the read gives `input`, the renderer gives `pdf`
for it and the write of `pdf` at `outputDir` joined with `baseName + ".pdf"` succeeds,
`convertToPdf` returns the success object with `outputFile = baseName + ".pdf"`, the
world state after the call is the one left by that write, and the trace gains exactly
the read, the renderer call, that write and the return.  Conversely a call that
returns `success = true` has `inputFile` the name, `outputFile = baseName + ".pdf"`,
and did read, render and write in this way, so that its only write is the renderer's
output at `outputDir` joined with `baseName + ".pdf"`.  In particular `report.docx`
gives `report.pdf` and `Notes.PPT` gives `Notes.pdf`. -/
theorem roundtrip_naming {σ : Type} (S : Sys σ) (dirPath outputDir : String) (w : World σ)
    (name : String) (hs : '/' ∉ name.data) (hsup : isSupported name = true) :
    (name = (scanMap S.join dirPath name).baseName ++ extname name ∧
      (scanMap S.join dirPath name).baseName ≠ "" ∧
      ∃ e : List Char, extname name = ⟨'.' :: e⟩ ∧ '.' ∉ e) ∧
    (∀ pdf, ConversionSucceeds S (scanMap S.join dirPath name) outputDir w pdf →
      (convertToPdf S (scanMap S.join dirPath name) outputDir w).1.success = true) ∧
    (∀ input pdf,
      (S.readFile (S.join dirPath name) w.state).1 = .ok input →
      (S.libreConvert input ".pdf" (S.readFile (S.join dirPath name) w.state).2).1 = .ok pdf →
      (S.writeFile (S.join outputDir ((scanMap S.join dirPath name).baseName ++ ".pdf")) pdf
        (S.libreConvert input ".pdf" (S.readFile (S.join dirPath name) w.state).2).2).1 =
          .ok () →
      (convertToPdf S (scanMap S.join dirPath name) outputDir w).1 =
          { success := true, inputFile := name,
            outputFile := some ((scanMap S.join dirPath name).baseName ++ ".pdf"),
            error := none,
            message := name ++ " → " ++ ((scanMap S.join dirPath name).baseName ++ ".pdf") } ∧
        (convertToPdf S (scanMap S.join dirPath name) outputDir w).2.state =
          (S.writeFile (S.join outputDir ((scanMap S.join dirPath name).baseName ++ ".pdf"))
            pdf (S.libreConvert input ".pdf"
              (S.readFile (S.join dirPath name) w.state).2).2).2 ∧
        (convertToPdf S (scanMap S.join dirPath name) outputDir w).2.trace =
          w.trace ++
            [.readFile (S.join dirPath name) (.ok input),
             .libreConvert input ".pdf" (.ok pdf),
             .writeFile (S.join outputDir ((scanMap S.join dirPath name).baseName ++ ".pdf"))
               pdf (.ok ()),
             .convertToPdf (scanMap S.join dirPath name) outputDir
               (convertToPdf S (scanMap S.join dirPath name) outputDir w).1]) ∧
    ((convertToPdf S (scanMap S.join dirPath name) outputDir w).1.success = true →
      (convertToPdf S (scanMap S.join dirPath name) outputDir w).1.inputFile = name ∧
      (convertToPdf S (scanMap S.join dirPath name) outputDir w).1.outputFile =
        some ((scanMap S.join dirPath name).baseName ++ ".pdf") ∧
      ∃ input pdf,
        (S.readFile (S.join dirPath name) w.state).1 = .ok input ∧
        (S.libreConvert input ".pdf" (S.readFile (S.join dirPath name) w.state).2).1 =
          .ok pdf ∧
        (convertToPdf S (scanMap S.join dirPath name) outputDir w).2.state =
          (S.writeFile (S.join outputDir ((scanMap S.join dirPath name).baseName ++ ".pdf"))
            pdf (S.libreConvert input ".pdf"
              (S.readFile (S.join dirPath name) w.state).2).2).2 ∧
        writes (convertToPdf S (scanMap S.join dirPath name) outputDir w).2.trace =
          writes w.trace ++
            [(S.join outputDir ((scanMap S.join dirPath name).baseName ++ ".pdf"), pdf)]) ∧
    (scanMap S.join dirPath "report.docx").baseName ++ ".pdf" = "report.pdf" ∧
    (scanMap S.join dirPath "Notes.PPT").baseName ++ ".pdf" = "Notes.pdf" := by
  have ex1 : basename "report.docx" (extname "report.docx") ++ ".pdf" = "report.pdf" := by
    decide
  have ex2 : basename "Notes.PPT" (extname "Notes.PPT") ++ ".pdf" = "Notes.pdf" := by decide
  have hrun : ∀ input pdf,
      (S.readFile (S.join dirPath name) w.state).1 = .ok input →
      (S.libreConvert input ".pdf" (S.readFile (S.join dirPath name) w.state).2).1 = .ok pdf →
      (S.writeFile (S.join outputDir ((scanMap S.join dirPath name).baseName ++ ".pdf")) pdf
        (S.libreConvert input ".pdf" (S.readFile (S.join dirPath name) w.state).2).2).1 =
          .ok () →
      convertToPdf S (scanMap S.join dirPath name) outputDir w =
        (conversionSuccess (scanMap S.join dirPath name),
          { state := (S.writeFile
              (S.join outputDir ((scanMap S.join dirPath name).baseName ++ ".pdf")) pdf
              (S.libreConvert input ".pdf" (S.readFile (S.join dirPath name) w.state).2).2).2
            trace := w.trace ++
              [.readFile (S.join dirPath name) (.ok input),
               .libreConvert input ".pdf" (.ok pdf),
               .writeFile (S.join outputDir ((scanMap S.join dirPath name).baseName ++ ".pdf"))
                 pdf (.ok ()),
               .convertToPdf (scanMap S.join dirPath name) outputDir
                 (conversionSuccess (scanMap S.join dirPath name))] }) :=
    fun input pdf h1 h2 h3 =>
      convertToPdf_success_run S (scanMap S.join dirPath name) outputDir w input pdf h1 h2 h3
  refine ⟨scanMap_baseName S.join dirPath name hs hsup, ?_, ?_, ?_, ex1, ex2⟩
  · intro pdf h
    rw [convertToPdf_of_succeeds S _ outputDir w pdf h]
    rfl
  · intro input pdf h1 h2 h3
    rw [hrun input pdf h1 h2 h3]
    exact ⟨rfl, rfl, rfl⟩
  · intro hsucc
    obtain ⟨input, pdf, h1, h2, h3⟩ :=
      convertToPdf_succeeds_of_success S (scanMap S.join dirPath name) outputDir w hsucc
    have h1' : (S.readFile (S.join dirPath name) w.state).1 = .ok input := h1
    rw [hrun input pdf h1 h2 h3]
    refine ⟨rfl, rfl, input, pdf, h1', h2, rfl, ?_⟩
    simp [writes_append, writes]

theorem roundtrip_naming_witness :
    '/' ∉ "Notes.PPT".data ∧ isSupported "Notes.PPT" = true ∧
      (demoSys.readFile (demoSys.join "/app/data/input" "Notes.PPT") demoNotes).1 =
        .ok [7, 7] ∧
      (convertToPdf demoSys (scanMap demoSys.join "/app/data/input" "Notes.PPT")
        "/app/data/output" ⟨demoNotes, []⟩).1.outputFile = some "Notes.pdf" ∧
      (convertToPdf demoSys (scanMap demoSys.join "/app/data/input" "Notes.PPT")
        "/app/data/output" ⟨demoNotes, []⟩).2.state =
        { libreOffice := true, input := [("Notes.PPT", [7, 7])],
          output := [("/app/data/output/Notes.pdf", [37, 80, 68, 70, 7, 7])] } ∧
      (convertToPdf demoSys (scanMap demoSys.join "/app/data/input" "Notes.PPT")
        "/app/data/output" ⟨demoNotes, []⟩).2.state.output =
        [("/app/data/output/Notes.pdf", [37, 80, 68, 70, 7, 7])] ∧
      writes (convertToPdf demoSys (scanMap demoSys.join "/app/data/input" "Notes.PPT")
        "/app/data/output" ⟨demoNotes, []⟩).2.trace =
        [("/app/data/output/Notes.pdf", [37, 80, 68, 70, 7, 7])] :=
  ⟨by decide, by decide, by decide,
    (congrArg ConversionResult.outputFile
      ((roundtrip_naming demoSys "/app/data/input" "/app/data/output" ⟨demoNotes, []⟩
        "Notes.PPT" (by decide) (by decide)).2.2.1 [7, 7] [37, 80, 68, 70, 7, 7]
        (by decide) (by decide) (by decide)).1).trans (by decide),
    ((roundtrip_naming demoSys "/app/data/input" "/app/data/output" ⟨demoNotes, []⟩
      "Notes.PPT" (by decide) (by decide)).2.2.1 [7, 7] [37, 80, 68, 70, 7, 7]
      (by decide) (by decide) (by decide)).2.1.trans (by decide),
    by decide, by decide⟩

/-- C4: for every file descriptor and every failure of the read, of the renderer or
of the write, with whatever message, `convertToPdf` returns a result with
`success = false`, `inputFile` the descriptor's name, the message of the failure as
`error`, and `message` equal to the name, `" → Error: "` and the reason, so that the
message contains both; nothing is written.  `convertToPdf` is a total function: on
every input it returns either the success object or such a failure object. -/
theorem convertToPdf_failure_captured {σ : Type} (S : Sys σ) (file : FileDescriptor)
    (outputDir : String) (w : World σ) (message : String)
    (h : ConversionFailsWith S file outputDir w message) :
    (convertToPdf S file outputDir w).1 =
        { success := false, inputFile := file.name, outputFile := none,
          error := some message, message := file.name ++ " → Error: " ++ message } ∧
      file.name.data <:+: (convertToPdf S file outputDir w).1.message.data ∧
      message.data <:+: (convertToPdf S file outputDir w).1.message.data ∧
      writes (convertToPdf S file outputDir w).2.trace = writes w.trace ∧
      (∀ (file2 : FileDescriptor) (outputDir2 : String) (w2 : World σ),
        (∃ pdf, ConversionSucceeds S file2 outputDir2 w2 pdf ∧
          (convertToPdf S file2 outputDir2 w2).1 = conversionSuccess file2) ∨
        (∃ reason, ConversionFailsWith S file2 outputDir2 w2 reason ∧
          (convertToPdf S file2 outputDir2 w2).1 = conversionFailure file2 reason)) := by
  have hres := convertToPdf_of_fails S file outputDir w message h
  refine ⟨hres, ?_, ?_, ?_, ?_⟩
  · rw [hres]
    exact ⟨[], (" → Error: " ++ message).data, by simp [conversionFailure]⟩
  · rw [hres]
    exact ⟨(file.name ++ " → Error: ").data, [], by simp [conversionFailure]⟩
  · obtain ⟨es, htrace, _, hcase⟩ := convertToPdf_spec S file outputDir w
    rcases hcase with ⟨pdf, _, hsucc, _⟩ | ⟨m, _, _, hw⟩
    · rw [hres] at hsucc
      simp [conversionFailure, conversionSuccess] at hsucc
    · rw [htrace, writes_append, writes_append, hw]
      simp [writes]
  · intro file2 outputDir2 w2
    obtain ⟨es, _, _, hcase⟩ := convertToPdf_spec S file2 outputDir2 w2
    rcases hcase with ⟨pdf, hs, hr, _⟩ | ⟨m, hf, hr, _⟩
    · exact Or.inl ⟨pdf, hs, hr⟩
    · exact Or.inr ⟨m, hf, hr⟩

theorem convertToPdf_failure_captured_witness :
    ConversionFailsWith demoSys (scanMap demoSys.join "/app/data/input" "b.docx")
        "/app/data/output" ⟨demoEmpty, []⟩ "Document is empty" ∧
      (convertToPdf demoSys (scanMap demoSys.join "/app/data/input" "b.docx")
        "/app/data/output" ⟨demoEmpty, []⟩).1 =
        { success := false, inputFile := "b.docx", outputFile := none,
          error := some "Document is empty",
          message := "b.docx → Error: Document is empty" } :=
  ⟨Or.inr (Or.inl ⟨[], by decide, by decide⟩),
    (convertToPdf_failure_captured demoSys (scanMap demoSys.join "/app/data/input" "b.docx")
      "/app/data/output" ⟨demoEmpty, []⟩ "Document is empty"
      (Or.inr (Or.inl ⟨[], by decide, by decide⟩))).1.trans (by decide)⟩

/-! ## The conversion loop -/

theorem convertCalls_append (a b : List Event) :
    convertCalls (a ++ b) = convertCalls a ++ convertCalls b := by
  simp [convertCalls, List.filterMap_append]

theorem summaries_append (a b : List Event) : summaries (a ++ b) = summaries a ++ summaries b := by
  simp [summaries, List.filterMap_append]

theorem exits_append (a b : List Event) : exits (a ++ b) = exits a ++ exits b := by
  simp [exits, List.filterMap_append]

theorem convertCalls_fileOps (es : List Event) (h : ∀ e ∈ es, e.isFileOp = true) :
    convertCalls es = [] := by
  rw [convertCalls, List.filterMap_eq_nil_iff]
  intro e he
  have := h e he
  cases e <;> simp_all [Event.isFileOp]

theorem succeeded_add_failures (calls : List (FileDescriptor × ConversionResult)) :
    succeeded calls + failures calls = calls.length := by
  induction calls with
  | nil => rfl
  | cons c calls ih =>
    simp only [succeeded, failures, List.countP_cons, List.length_cons] at ih ⊢
    cases c.2.success <;> simp <;> omega

/-- What the conversion loop does: it adds conversion events only, calls
`convertToPdf` once on every file, in order, with the output directory, counts the
successes and the failures, leaves `total` and `skipped` alone, and the files written
are those of the successful conversions, each at `OUTPUT_DIR/baseName.pdf`. -/
theorem convertLoop_spec {σ : Type} (S : Sys σ) (files : List FileDescriptor) (stats : Stats)
    (w : World σ) :
    ∃ es, (convertLoop S files stats w).2.trace = w.trace ++ es ∧
      (∀ e ∈ es, e.isConversion = true) ∧
      (convertCalls es).map Prod.fst = files ∧
      (convertLoop S files stats w).1 =
        { total := stats.total
          success := stats.success + succeeded (convertCalls es)
          failed := stats.failed + failures (convertCalls es)
          skipped := stats.skipped } ∧
      (writes es).map Prod.fst =
        ((convertCalls es).filter fun c => c.2.success).map
          fun c => S.join S.OUTPUT_DIR (c.1.baseName ++ ".pdf") := by
  induction files generalizing stats w with
  | nil =>
    exact ⟨[], by simp [convertLoop], by simp, rfl, by simp [convertLoop, succeeded, failures,
      convertCalls], rfl⟩
  | cons file rest ih =>
    obtain ⟨es, htrace, hops, hcase⟩ := convertToPdf_spec S file S.OUTPUT_DIR w
    have hcalls := convertCalls_fileOps es hops
    have hconv : ∀ e ∈ es, e.isConversion = true := by
      intro e he
      have := hops e he
      cases e <;> simp_all [Event.isFileOp, Event.isConversion]
    by_cases hsucc : (convertToPdf S file S.OUTPUT_DIR w).1.success = true
    · obtain ⟨es2, htrace2, hconv2, hfiles2, hstats2, hwrites2⟩ :=
        ih { stats with success := stats.success + 1 }
          ((convertToPdf S file S.OUTPUT_DIR w).2.emit
            (.logger "success" (convertToPdf S file S.OUTPUT_DIR w).1.message))
      have hwes : (writes es).map Prod.fst = [S.join S.OUTPUT_DIR (file.baseName ++ ".pdf")] := by
        rcases hcase with ⟨pdf, _, _, hw⟩ | ⟨m, _, hres, _⟩
        · rw [hw]; rfl
        · rw [hres] at hsucc
          simp [conversionFailure] at hsucc
      refine ⟨es ++ [.convertToPdf file S.OUTPUT_DIR (convertToPdf S file S.OUTPUT_DIR w).1,
          .logger "success" (convertToPdf S file S.OUTPUT_DIR w).1.message] ++ es2,
        ?_, ?_, ?_, ?_, ?_⟩
      · simp only [convertLoop, hsucc, if_true]
        rw [htrace2]
        simp [World.emit, htrace]
      · intro e he
        simp only [List.mem_append, List.mem_cons, List.mem_singleton, List.not_mem_nil,
          or_false] at he
        rcases he with (he | he | he) | he
        · exact hconv e he
        · rw [he]; rfl
        · rw [he]; rfl
        · exact hconv2 e he
      · simp only [convertCalls_append, hcalls, List.nil_append, List.map_append, hfiles2]
        simp [convertCalls]
      · simp only [convertLoop, hsucc, if_true]
        rw [hstats2]
        simp only [convertCalls_append, hcalls, List.nil_append]
        simp [convertCalls, succeeded, failures, hsucc, List.countP_cons]
        omega
      · simp only [writes_append, convertCalls_append, hcalls, List.nil_append, List.map_append,
          hwes, hwrites2, List.filter_append]
        simp [writes, convertCalls, hsucc]
    · have hfail : (convertToPdf S file S.OUTPUT_DIR w).1.success = false := by
        simpa using hsucc
      obtain ⟨es2, htrace2, hconv2, hfiles2, hstats2, hwrites2⟩ :=
        ih { stats with failed := stats.failed + 1 }
          ((convertToPdf S file S.OUTPUT_DIR w).2.emit
            (.logger "error" (convertToPdf S file S.OUTPUT_DIR w).1.message))
      have hwes : writes es = [] := by
        rcases hcase with ⟨pdf, _, hres, _⟩ | ⟨m, _, _, hw⟩
        · rw [hres] at hfail
          simp [conversionSuccess] at hfail
        · exact hw
      refine ⟨es ++ [.convertToPdf file S.OUTPUT_DIR (convertToPdf S file S.OUTPUT_DIR w).1,
          .logger "error" (convertToPdf S file S.OUTPUT_DIR w).1.message] ++ es2,
        ?_, ?_, ?_, ?_, ?_⟩
      · simp only [convertLoop, hfail, Bool.false_eq_true, if_false]
        rw [htrace2]
        simp [World.emit, htrace]
      · intro e he
        simp only [List.mem_append, List.mem_cons, List.mem_singleton, List.not_mem_nil,
          or_false] at he
        rcases he with (he | he | he) | he
        · exact hconv e he
        · rw [he]; rfl
        · rw [he]; rfl
        · exact hconv2 e he
      · simp only [convertCalls_append, hcalls, List.nil_append, List.map_append, hfiles2]
        simp [convertCalls]
      · simp only [convertLoop, hfail, Bool.false_eq_true, if_false]
        rw [hstats2]
        simp only [convertCalls_append, hcalls, List.nil_append]
        simp [convertCalls, succeeded, failures, hfail, List.countP_cons]
        omega
      · simp only [writes_append, convertCalls_append, hcalls, List.nil_append, List.map_append,
          hwes, hwrites2, List.filter_append]
        simp [writes, convertCalls, hfail]

/-! ## The shape of a run -/

/-- What `scanDirectory` adds to the trace: a failed `ensureDir`, or a failed
`readdir`, each followed by the thrown error, or both calls and the descriptors. -/
theorem scanDirectory_shape {σ : Type} (S : Sys σ) (dirPath : String) (w : World σ) :
    (∃ m, (scanDirectory S dirPath w).1 = .error ("Failed to scan directory: " ++ m) ∧
      (scanDirectory S dirPath w).2.trace = w.trace ++
        [.ensureDir dirPath (.error m),
         .scanDirectory dirPath (.error ("Failed to scan directory: " ++ m))]) ∨
    (∃ m, (scanDirectory S dirPath w).1 = .error ("Failed to scan directory: " ++ m) ∧
      (scanDirectory S dirPath w).2.trace = w.trace ++
        [.ensureDir dirPath (.ok ()), .readdir dirPath (.error m),
         .scanDirectory dirPath (.error ("Failed to scan directory: " ++ m))]) ∨
    (∃ listing, (scanDirectory S dirPath w).1 = .ok (supportedFiles S.join dirPath listing) ∧
      (scanDirectory S dirPath w).2.trace = w.trace ++
        [.ensureDir dirPath (.ok ()), .readdir dirPath (.ok listing),
         .scanDirectory dirPath (.ok (supportedFiles S.join dirPath listing))]) := by
  rcases h1 : (S.ensureDir dirPath w.state).1 with m | u
  · exact Or.inl ⟨m, by simp [scanDirectory, World.call, h1],
      by simp [scanDirectory, World.call, World.emit, h1]⟩
  · rcases h2 : (S.readdir dirPath (S.ensureDir dirPath w.state).2).1 with m | listing
    · exact Or.inr (Or.inl ⟨m, by simp [scanDirectory, World.call, h1, h2],
        by simp [scanDirectory, World.call, World.emit, h1, h2]⟩)
    · exact Or.inr (Or.inr ⟨listing, by simp [scanDirectory, World.call, h1, h2],
        by simp [scanDirectory, World.call, World.emit, h1, h2]⟩)

theorem quiet_foundLines (n : Nat) : Quiet (foundLines n) := by
  intro e he
  simp only [foundLines, List.mem_cons, List.mem_singleton, List.not_mem_nil, or_false] at he
  rcases he with rfl | rfl | rfl | rfl <;> rfl

/-- What steps 4 and 5 of `main` add to the trace: logger lines, the events of the
loop, logger lines, the summary with the counts of the loop, logger lines; the exit
status is 0 and `process.exit` is not called. -/
theorem convertAndSummarise_shape {σ : Type} (S : Sys σ) (files : List FileDescriptor)
    (w : World σ) :
    ∃ q4 es q5 q6, Quiet q4 ∧ Quiet q5 ∧ Quiet q6 ∧
      (convertAndSummarise S files w).world.trace =
        w.trace ++ q4 ++ es ++ q5 ++
          [.summary { total := files.length, success := succeeded (convertCalls es),
                      failed := failures (convertCalls es), skipped := 0 }] ++ q6 ∧
      (convertAndSummarise S files w).exitCode = 0 ∧
      (∀ e ∈ es, e.isConversion = true) ∧
      (convertCalls es).map Prod.fst = files ∧
      (writes es).map Prod.fst =
        ((convertCalls es).filter fun c => c.2.success).map
          fun c => S.join S.OUTPUT_DIR (c.1.baseName ++ ".pdf") := by
  obtain ⟨es, htrace, hconv, hfiles, hstats, hwrites⟩ :=
    convertLoop_spec S files
      { total := files.length, success := 0, failed := 0, skipped := 0 }
      (w.emits (foundLines files.length))
  have hq5 : Quiet [Event.logger "log" ""] := by
    intro e he
    simp only [List.mem_singleton] at he
    rw [he]; rfl
  generalize hr : convertLoop S files
    { total := files.length, success := 0, failed := 0, skipped := 0 }
    (w.emits (foundLines files.length)) = r at htrace hstats
  have hdef : convertAndSummarise S files w =
      { world :=
          if r.1.success > 0 then
            (r.2.emits [.logger "log" "", .summary r.1]).emits
              [ .logger "log" "",
                .logger "success" ("Conversion complete! Check " ++ S.OUTPUT_DIR ++ " for PDFs."),
                .logger "log" "" ]
          else r.2.emits [.logger "log" "", .summary r.1]
        exitCode := 0 } := by
    rw [← hr]
    rfl
  have hexit : (convertAndSummarise S files w).exitCode = 0 := by rw [hdef]
  by_cases hpos : r.1.success > 0
  · refine ⟨foundLines files.length, es, [.logger "log" ""], [ .logger "log" "",
        .logger "success" ("Conversion complete! Check " ++ S.OUTPUT_DIR ++ " for PDFs."),
        .logger "log" "" ], quiet_foundLines _, hq5, ?_, ?_, hexit, hconv, hfiles, hwrites⟩
    · intro e he
      simp only [List.mem_cons, List.mem_singleton, List.not_mem_nil, or_false] at he
      rcases he with rfl | rfl | rfl <;> rfl
    · rw [hdef, if_pos hpos]
      simp only [World.emits, htrace, hstats]
      simp
  · refine ⟨foundLines files.length, es, [.logger "log" ""], [], quiet_foundLines _, hq5, ?_,
      ?_, hexit, hconv, hfiles, hwrites⟩
    · intro e he
      simp at he
    · rw [hdef, if_neg hpos]
      simp only [World.emits, htrace, hstats]
      simp

theorem quiet_fatal (message : String) :
    Quiet [.logger "log" "", .logger "error" ("Fatal error: " ++ message), .logger "log" ""] := by
  intro e he
  simp only [List.mem_cons, List.mem_singleton, List.not_mem_nil, or_false] at he
  rcases he with rfl | rfl | rfl <;> rfl

theorem fatal_trace {σ : Type} (message : String) (w : World σ) :
    (fatal message w).world.trace = w.trace ++
      [.logger "log" "", .logger "error" ("Fatal error: " ++ message), .logger "log" ""] ++
      [.exit 1] ∧ (fatal message w).exitCode = 1 := by
  simp [fatal, World.emits]

theorem quiet_scanning : Quiet [Event.logger "info" "Scanning input directory..."] := by
  intro e he
  simp only [List.mem_singleton] at he
  rw [he]; rfl

theorem quiet_noFiles (dir : String) :
    Quiet [ .logger "warning" "No files found to convert", .logger "log" "",
      .logger "info" ("Please place your files (.doc, .docx, .ppt, .pptx) in: " ++ dir),
      .logger "log" "" ] := by
  intro e he
  simp only [List.mem_cons, List.mem_singleton, List.not_mem_nil, or_false] at he
  rcases he with rfl | rfl | rfl | rfl <;> rfl

/-- Steps 2 to 5 of `main` continue the trace in one of the six ways of `Continues`. -/
theorem scanAndConvert_shape {σ : Type} (S : Sys σ) (w : World σ) :
    ∃ rest, (scanAndConvert S w).world.trace = w.trace ++ rest ∧
      Continues S rest (scanAndConvert S w).exitCode := by
  rcases h1 : (S.ensureDir S.INPUT_DIR w.state).1 with m | u
  · have hdef : scanAndConvert S w = fatal m
        ⟨(S.ensureDir S.INPUT_DIR w.state).2,
          w.trace ++ [.ensureDir S.INPUT_DIR (.error m)]⟩ := by
      simp [scanAndConvert, World.call, h1]
    refine ⟨_, ?_, Or.inl ⟨m, _, quiet_fatal m, ?_, rfl⟩⟩
    · rw [hdef, (fatal_trace _ _).1]
      simp
    · rw [hdef, (fatal_trace _ _).2]
  · rcases h2 : (S.ensureDir S.OUTPUT_DIR (S.ensureDir S.INPUT_DIR w.state).2).1 with m | u2
    · have hdef : scanAndConvert S w = fatal m
          ⟨(S.ensureDir S.OUTPUT_DIR (S.ensureDir S.INPUT_DIR w.state).2).2,
            w.trace ++ [.ensureDir S.INPUT_DIR (.ok ()),
              .ensureDir S.OUTPUT_DIR (.error m)]⟩ := by
        simp [scanAndConvert, World.call, h1, h2]
      refine ⟨_, ?_, Or.inr (Or.inl ⟨m, _, quiet_fatal m, ?_, rfl⟩)⟩
      · rw [hdef, (fatal_trace _ _).1]
        simp
      · rw [hdef, (fatal_trace _ _).2]
    · generalize hw2 : (⟨(S.ensureDir S.OUTPUT_DIR (S.ensureDir S.INPUT_DIR w.state).2).2,
          w.trace ++ [.ensureDir S.INPUT_DIR (.ok ()), .ensureDir S.OUTPUT_DIR (.ok ())] ++
            [.logger "info" "Scanning input directory..."]⟩ : World σ) = w2
      have htr2 : w2.trace = w.trace ++
          [.ensureDir S.INPUT_DIR (.ok ()), .ensureDir S.OUTPUT_DIR (.ok ())] ++
            [.logger "info" "Scanning input directory..."] := by rw [← hw2]
      have hdef : scanAndConvert S w =
          match (scanDirectory S S.INPUT_DIR w2).1 with
          | .error message => fatal message (scanDirectory S S.INPUT_DIR w2).2
          | .ok files =>
            if files.length = 0 then
              { world := (scanDirectory S S.INPUT_DIR w2).2.emits
                  [ .logger "warning" "No files found to convert",
                    .logger "log" "",
                    .logger "info"
                      ("Please place your files (.doc, .docx, .ppt, .pptx) in: " ++
                        S.INPUT_DIR),
                    .logger "log" "",
                    .exit 0 ]
                exitCode := 0 }
            else convertAndSummarise S files (scanDirectory S S.INPUT_DIR w2).2 := by
        rw [← hw2]
        simp [scanAndConvert, World.call, World.emit, h1, h2]
      rcases scanDirectory_shape S S.INPUT_DIR w2 with ⟨m, hres, htr⟩ | ⟨m, hres, htr⟩ |
        ⟨listing, hres, htr⟩
      · rw [hres] at hdef
        simp only at hdef
        refine ⟨[.ensureDir S.INPUT_DIR (.ok ()), .ensureDir S.OUTPUT_DIR (.ok ())] ++
            [.logger "info" "Scanning input directory..."] ++
            [.ensureDir S.INPUT_DIR (.error m),
             .scanDirectory S.INPUT_DIR (.error ("Failed to scan directory: " ++ m))] ++
            [.logger "log" "",
             .logger "error" ("Fatal error: " ++ ("Failed to scan directory: " ++ m)),
             .logger "log" ""] ++ [.exit 1], ?_, Or.inr (Or.inr (Or.inl
          ⟨_, m, _, quiet_scanning, quiet_fatal _, ?_, rfl⟩))⟩
        · rw [hdef, (fatal_trace _ _).1, htr, htr2]
          simp
        · rw [hdef, (fatal_trace _ _).2]
      · rw [hres] at hdef
        simp only at hdef
        refine ⟨[.ensureDir S.INPUT_DIR (.ok ()), .ensureDir S.OUTPUT_DIR (.ok ())] ++
            [.logger "info" "Scanning input directory..."] ++
            [.ensureDir S.INPUT_DIR (.ok ()), .readdir S.INPUT_DIR (.error m),
             .scanDirectory S.INPUT_DIR (.error ("Failed to scan directory: " ++ m))] ++
            [.logger "log" "",
             .logger "error" ("Fatal error: " ++ ("Failed to scan directory: " ++ m)),
             .logger "log" ""] ++ [.exit 1], ?_, Or.inr (Or.inr (Or.inr (Or.inl
          ⟨_, m, _, quiet_scanning, quiet_fatal _, ?_, rfl⟩)))⟩
        · rw [hdef, (fatal_trace _ _).1, htr, htr2]
          simp
        · rw [hdef, (fatal_trace _ _).2]
      · rw [hres] at hdef
        simp only at hdef
        by_cases hempty : supportedFiles S.join S.INPUT_DIR listing = []
        · have hlen : (supportedFiles S.join S.INPUT_DIR listing).length = 0 := by
            rw [hempty]; rfl
          rw [if_pos hlen] at hdef
          refine ⟨[.ensureDir S.INPUT_DIR (.ok ()), .ensureDir S.OUTPUT_DIR (.ok ())] ++
              [.logger "info" "Scanning input directory..."] ++
              [.ensureDir S.INPUT_DIR (.ok ()), .readdir S.INPUT_DIR (.ok listing),
               .scanDirectory S.INPUT_DIR (.ok [])] ++
              [ .logger "warning" "No files found to convert", .logger "log" "",
                .logger "info"
                  ("Please place your files (.doc, .docx, .ppt, .pptx) in: " ++ S.INPUT_DIR),
                .logger "log" "" ] ++ [.exit 0], ?_, Or.inr (Or.inr (Or.inr (Or.inr (Or.inl
            ⟨_, listing, _, quiet_scanning, quiet_noFiles S.INPUT_DIR, ?_, hempty, rfl⟩))))⟩
          · rw [hdef]
            simp [World.emits, htr, htr2, hempty]
          · rw [hdef]
        · have hlen : ¬ (supportedFiles S.join S.INPUT_DIR listing).length = 0 := by
            intro h
            exact hempty (List.length_eq_zero.mp h)
          rw [if_neg hlen] at hdef
          obtain ⟨q4, es, q5, q6, hq4, hq5, hq6, htrace, hexit, hconv, hfiles, hwrites⟩ :=
            convertAndSummarise_shape S (supportedFiles S.join S.INPUT_DIR listing)
              (scanDirectory S S.INPUT_DIR w2).2
          refine ⟨[.ensureDir S.INPUT_DIR (.ok ()), .ensureDir S.OUTPUT_DIR (.ok ())] ++
              [.logger "info" "Scanning input directory..."] ++
              [.ensureDir S.INPUT_DIR (.ok ()), .readdir S.INPUT_DIR (.ok listing),
               .scanDirectory S.INPUT_DIR (.ok (supportedFiles S.join S.INPUT_DIR listing))] ++
              q4 ++ es ++ q5 ++
              [.summary { total := (supportedFiles S.join S.INPUT_DIR listing).length,
                          success := succeeded (convertCalls es),
                          failed := failures (convertCalls es), skipped := 0 }] ++ q6,
            ?_, Or.inr (Or.inr (Or.inr (Or.inr (Or.inr
            ⟨_, listing, q4, es, q5, q6, quiet_scanning, hq4, hq5, hq6, ?_, hempty, rfl, hconv,
              hfiles, hwrites⟩))))⟩
          · rw [hdef, htrace, htr, htr2]
            simp
          · rw [hdef, hexit]

theorem quiet_installGuidance : Quiet installGuidance := by
  intro e he
  simp only [installGuidance, List.mem_cons, List.mem_singleton, List.not_mem_nil,
    or_false] at he
  rcases he with rfl | rfl | rfl | rfl | rfl | rfl | rfl | rfl | rfl | rfl | rfl | rfl | rfl |
    rfl | rfl | rfl | rfl | rfl | rfl <;> rfl

theorem quiet_intro :
    Quiet [ .logger "header" "📄 Office Document to PDF Converter", .logger "log" "",
      .logger "info" "Checking LibreOffice installation..." ] := by
  intro e he
  simp only [List.mem_cons, List.mem_singleton, List.not_mem_nil, or_false] at he
  rcases he with rfl | rfl | rfl <;> rfl

theorem quiet_found (path : String) :
    Quiet [ .logger "success" ("LibreOffice found at: " ++ path), .logger "log" "" ] := by
  intro e he
  simp only [List.mem_cons, List.mem_singleton, List.not_mem_nil, or_false] at he
  rcases he with rfl | rfl <;> rfl

/-- The result of `checkLibreOfficeInstallation` depends on the world state only. -/
theorem checkLibreOfficeInstallation_result {σ : Type} (S : Sys σ) (w : World σ) :
    (checkLibreOfficeInstallation S w).1 =
      match (S.exec "which libreoffice || where libreoffice" w.state).1 with
      | .ok stdout => { isAvailable := true, path := some (trim stdout), error := none }
      | .error _ =>
        { isAvailable := false, path := none,
          error := some "LibreOffice not found in system PATH" } := by
  simp only [checkLibreOfficeInstallation, World.call]
  cases (S.exec "which libreoffice || where libreoffice" w.state).1 <;> rfl

/-- The shape of every run of `main`: logger lines, the probe and the result of the
check, logger lines, and then either `process.exit(1)` when LibreOffice is not
available, or one of the continuations of `Continues` when it is. -/
theorem main_shape {σ : Type} (S : Sys σ) (s : σ) :
    ∃ q1 q2 x chk rest, Quiet q1 ∧ Quiet q2 ∧
      (main S s).world.trace =
        q1 ++ [.exec "which libreoffice || where libreoffice" x,
          .checkLibreOfficeInstallation chk] ++ q2 ++ rest ∧
      chk = (checkLibreOfficeInstallation S ⟨s, []⟩).1 ∧
      ((chk.isAvailable = false ∧ rest = [.exit 1] ∧ (main S s).exitCode = 1) ∨
        (chk.isAvailable = true ∧ Continues S rest (main S s).exitCode)) := by
  rcases hx : (S.exec "which libreoffice || where libreoffice" s).1 with m | out
  · refine ⟨_, installGuidance, .error m, _, [.exit 1], quiet_intro, quiet_installGuidance, ?_,
      rfl, Or.inl ⟨?_, rfl, ?_⟩⟩
    · simp [main, checkLibreOfficeInstallation, World.call, World.emits, World.emit, hx]
    · simp [checkLibreOfficeInstallation, World.call, hx]
    · simp [main, checkLibreOfficeInstallation, World.call, World.emits, World.emit, hx]
  · generalize hw1 : (⟨(S.exec "which libreoffice || where libreoffice" s).2,
        [ .logger "header" "📄 Office Document to PDF Converter", .logger "log" "",
          .logger "info" "Checking LibreOffice installation..." ] ++
        [.exec "which libreoffice || where libreoffice" (.ok out),
          .checkLibreOfficeInstallation
            { isAvailable := true, path := some (trim out), error := none }] ++
        [ .logger "success" ("LibreOffice found at: " ++ trim out), .logger "log" "" ]⟩ :
        World σ) = w1
    have hdef : main S s = scanAndConvert S w1 := by
      rw [← hw1]
      simp [main, checkLibreOfficeInstallation, World.call, World.emits, World.emit, hx]
    obtain ⟨rest, htrace, hcont⟩ := scanAndConvert_shape S w1
    refine ⟨[ .logger "header" "📄 Office Document to PDF Converter", .logger "log" "",
          .logger "info" "Checking LibreOffice installation..." ],
      [ .logger "success" ("LibreOffice found at: " ++ trim out), .logger "log" "" ],
      .ok out, { isAvailable := true, path := some (trim out), error := none }, rest,
      quiet_intro, quiet_found (trim out), ?_, ?_, Or.inr ⟨?_, ?_⟩⟩
    · rw [hdef, htrace, ← hw1]
    · simp [checkLibreOfficeInstallation, World.call, hx]
    · rfl
    · rw [hdef]
      exact hcont

/-! ## Reading the shape of a run -/

theorem not_mem_quiet {q : List Event} (hq : Quiet q) (e : Event) (he : e.isLogger = false) :
    e ∉ q := by
  intro h
  have := hq e h
  rw [he] at this
  cases this

theorem not_mem_conversion {es : List Event} (hes : ∀ e ∈ es, e.isConversion = true) (e : Event)
    (he : e.isConversion = false) : e ∉ es := by
  intro h
  have := hes e h
  rw [he] at this
  cases this

theorem convertCalls_quiet {q : List Event} (hq : Quiet q) : convertCalls q = [] := by
  rw [convertCalls, List.filterMap_eq_nil_iff]
  intro e he
  have := hq e he
  cases e <;> simp_all [Event.isLogger]

theorem summaries_quiet {q : List Event} (hq : Quiet q) : summaries q = [] := by
  rw [summaries, List.filterMap_eq_nil_iff]
  intro e he
  have := hq e he
  cases e <;> simp_all [Event.isLogger]

theorem exits_quiet {q : List Event} (hq : Quiet q) : exits q = [] := by
  rw [exits, List.filterMap_eq_nil_iff]
  intro e he
  have := hq e he
  cases e <;> simp_all [Event.isLogger]

theorem writes_quiet {q : List Event} (hq : Quiet q) : writes q = [] := by
  rw [writes, List.filterMap_eq_nil_iff]
  intro e he
  have := hq e he
  cases e <;> simp_all [Event.isLogger]

theorem summaries_conversion {es : List Event} (hes : ∀ e ∈ es, e.isConversion = true) :
    summaries es = [] := by
  rw [summaries, List.filterMap_eq_nil_iff]
  intro e he
  have := hes e he
  cases e <;> simp_all [Event.isConversion]

theorem exits_conversion {es : List Event} (hes : ∀ e ∈ es, e.isConversion = true) :
    exits es = [] := by
  rw [exits, List.filterMap_eq_nil_iff]
  intro e he
  have := hes e he
  cases e <;> simp_all [Event.isConversion]

/-- A run whose scan returned files that are not empty is a run of the last kind. -/
theorem main_shape_of_scanned {σ : Type} (S : Sys σ) (s : σ) (files : List FileDescriptor)
    (hscan : Event.scanDirectory S.INPUT_DIR (.ok files) ∈ (main S s).world.trace)
    (hne : files ≠ []) :
    ∃ before es q5 q6, Quiet q5 ∧ Quiet q6 ∧
      (main S s).world.trace = before ++ es ++ q5 ++
        [.summary { total := files.length, success := succeeded (convertCalls es),
                    failed := failures (convertCalls es), skipped := 0 }] ++ q6 ∧
      convertCalls before = [] ∧ summaries before = [] ∧ exits before = [] ∧
      writes before = [] ∧
      (main S s).exitCode = 0 ∧
      (∀ e ∈ es, e.isConversion = true) ∧
      (convertCalls es).map Prod.fst = files ∧
      (writes es).map Prod.fst =
        ((convertCalls es).filter fun c => c.2.success).map
          fun c => S.join S.OUTPUT_DIR (c.1.baseName ++ ".pdf") := by
  obtain ⟨q1, q2, x, chk, rest, hq1, hq2, htrace, _, hcase⟩ := main_shape S s
  rw [htrace] at hscan
  have n1 := not_mem_quiet hq1 (.scanDirectory S.INPUT_DIR (.ok files)) rfl
  have n2 := not_mem_quiet hq2 (.scanDirectory S.INPUT_DIR (.ok files)) rfl
  rcases hcase with ⟨_, hrest, _⟩ | ⟨_, hcont⟩
  · rw [hrest] at hscan
    simp [n1, n2] at hscan
  · rcases hcont with ⟨m, q, hq, _, hrest⟩ | ⟨m, q, hq, _, hrest⟩ | ⟨q3, m, q, hq3, hq, _, hrest⟩ |
      ⟨q3, m, q, hq3, hq, _, hrest⟩ | ⟨q3, listing, q, hq3, hq, _, _, hrest⟩ |
      ⟨q3, listing, q4, es, q5, q6, hq3, hq4, hq5, hq6, hexit, hempty, hrest, hconv, hfiles,
        hwrites⟩
    · have n3 := not_mem_quiet hq (.scanDirectory S.INPUT_DIR (.ok files)) rfl
      rw [hrest] at hscan
      simp [n1, n2, n3] at hscan
    · have n3 := not_mem_quiet hq (.scanDirectory S.INPUT_DIR (.ok files)) rfl
      rw [hrest] at hscan
      simp [n1, n2, n3] at hscan
    · have n3 := not_mem_quiet hq (.scanDirectory S.INPUT_DIR (.ok files)) rfl
      have n4 := not_mem_quiet hq3 (.scanDirectory S.INPUT_DIR (.ok files)) rfl
      rw [hrest] at hscan
      simp [n1, n2, n3, n4] at hscan
    · have n3 := not_mem_quiet hq (.scanDirectory S.INPUT_DIR (.ok files)) rfl
      have n4 := not_mem_quiet hq3 (.scanDirectory S.INPUT_DIR (.ok files)) rfl
      rw [hrest] at hscan
      simp [n1, n2, n3, n4] at hscan
    · have n3 := not_mem_quiet hq (.scanDirectory S.INPUT_DIR (.ok files)) rfl
      have n4 := not_mem_quiet hq3 (.scanDirectory S.INPUT_DIR (.ok files)) rfl
      rw [hrest] at hscan
      simp [n1, n2, n3, n4] at hscan
      exact absurd hscan hne
    · have n3 := not_mem_quiet hq3 (.scanDirectory S.INPUT_DIR (.ok files)) rfl
      have n4 := not_mem_quiet hq4 (.scanDirectory S.INPUT_DIR (.ok files)) rfl
      have n5 := not_mem_quiet hq5 (.scanDirectory S.INPUT_DIR (.ok files)) rfl
      have n6 := not_mem_quiet hq6 (.scanDirectory S.INPUT_DIR (.ok files)) rfl
      have n7 := not_mem_conversion hconv (.scanDirectory S.INPUT_DIR (.ok files)) rfl
      rw [hrest] at hscan
      simp [n1, n2, n3, n4, n5, n6, n7] at hscan
      rw [hrest] at htrace
      refine ⟨q1 ++ [.exec "which libreoffice || where libreoffice" x,
          .checkLibreOfficeInstallation chk] ++ q2 ++
          ([.ensureDir S.INPUT_DIR (.ok ()), .ensureDir S.OUTPUT_DIR (.ok ())] ++ q3 ++
            [.ensureDir S.INPUT_DIR (.ok ()), .readdir S.INPUT_DIR (.ok listing),
             .scanDirectory S.INPUT_DIR (.ok (supportedFiles S.join S.INPUT_DIR listing))] ++
            q4), es, q5, q6, hq5, hq6, ?_, ?_, ?_, ?_, ?_, hexit, hconv, ?_, hwrites⟩
      · rw [htrace, hscan]
        simp
      · simp only [convertCalls_append, convertCalls_quiet hq1, convertCalls_quiet hq2, convertCalls_quiet hq3,
          convertCalls_quiet hq4, List.nil_append, List.append_nil]
        rfl
      · simp only [summaries_append, summaries_quiet hq1, summaries_quiet hq2, summaries_quiet hq3,
          summaries_quiet hq4, List.nil_append, List.append_nil]
        rfl
      · simp only [exits_append, exits_quiet hq1, exits_quiet hq2, exits_quiet hq3,
          exits_quiet hq4, List.nil_append, List.append_nil]
        rfl
      · simp only [writes_append, writes_quiet hq1, writes_quiet hq2, writes_quiet hq3,
          writes_quiet hq4, List.nil_append, List.append_nil]
        rfl
      · rw [hfiles, hscan]

/-- The projections of the trace of a run whose scan returned files that are not
empty: the calls of `convertToPdf` are those of the loop, there is exactly one
summary, and `process.exit` is never called. -/
theorem main_projections_of_scanned {σ : Type} (S : Sys σ) (s : σ) (files : List FileDescriptor)
    (hscan : Event.scanDirectory S.INPUT_DIR (.ok files) ∈ (main S s).world.trace)
    (hne : files ≠ []) :
    (convertCalls (main S s).world.trace).map Prod.fst = files ∧
      summaries (main S s).world.trace =
        [{ total := files.length,
           success := succeeded (convertCalls (main S s).world.trace),
           failed := failures (convertCalls (main S s).world.trace), skipped := 0 }] ∧
      exits (main S s).world.trace = [] ∧ (main S s).exitCode = 0 ∧
      (writes (main S s).world.trace).map Prod.fst =
        ((convertCalls (main S s).world.trace).filter fun c => c.2.success).map
          fun c => S.join S.OUTPUT_DIR (c.1.baseName ++ ".pdf") := by
  obtain ⟨before, es, q5, q6, hq5, hq6, htrace, hb1, hb2, hb3, hb4, hexit, hconv, hfiles,
    hwrites⟩ := main_shape_of_scanned S s files hscan hne
  have hcalls : convertCalls (main S s).world.trace = convertCalls es := by
    rw [htrace]
    simp only [convertCalls_append, hb1, convertCalls_quiet hq5, convertCalls_quiet hq6,
      List.nil_append, List.append_nil]
    simp [convertCalls]
  refine ⟨?_, ?_, ?_, hexit, ?_⟩
  · rw [hcalls, hfiles]
  · rw [hcalls, htrace]
    simp only [summaries_append, hb2, summaries_quiet hq5, summaries_quiet hq6,
      summaries_conversion hconv, List.nil_append, List.append_nil]
    rfl
  · rw [htrace]
    simp only [exits_append, hb3, exits_quiet hq5, exits_quiet hq6, exits_conversion hconv,
      List.nil_append, List.append_nil]
    rfl
  · rw [hcalls, ← hwrites, htrace]
    simp only [writes_append, hb4, writes_quiet hq5, writes_quiet hq6, List.nil_append,
      List.append_nil]
    simp [writes]

/-! ## Claims about the orchestrator -/

/-- C5: in every run whose scan returned a non-empty list of `N` files, whatever the
outcome of each conversion, `convertToPdf` is called exactly once on every file, in
scan order, all of these calls come before the summary, the summary is reached, and
the `stats` passed to it are `total = N`, `success = N - k`, `failed = k`,
`skipped = 0`, where `k` is the number of conversions that failed; with three files
and one failure they are 3, 2, 1, 0. -/
theorem main_stats {σ : Type} (S : Sys σ) (s : σ) (files : List FileDescriptor)
    (hscan : Event.scanDirectory S.INPUT_DIR (.ok files) ∈ (main S s).world.trace)
    (hne : files ≠ []) :
    (convertCalls (main S s).world.trace).map Prod.fst = files ∧
      failures (convertCalls (main S s).world.trace) ≤ files.length ∧
      summaries (main S s).world.trace =
        [{ total := files.length,
           success := files.length - failures (convertCalls (main S s).world.trace),
           failed := failures (convertCalls (main S s).world.trace), skipped := 0 }] ∧
      (∃ before stats after, (main S s).world.trace = before ++ [.summary stats] ++ after ∧
        (convertCalls before).map Prod.fst = files ∧ convertCalls after = []) ∧
      (files.length = 3 → failures (convertCalls (main S s).world.trace) = 1 →
        summaries (main S s).world.trace =
          [{ total := 3, success := 2, failed := 1, skipped := 0 }]) := by
  obtain ⟨hcalls, hsum, _, _, _⟩ := main_projections_of_scanned S s files hscan hne
  have hlen : (convertCalls (main S s).world.trace).length = files.length := by
    rw [← hcalls, List.length_map]
  have hadd := succeeded_add_failures (convertCalls (main S s).world.trace)
  have hsucc : succeeded (convertCalls (main S s).world.trace) =
      files.length - failures (convertCalls (main S s).world.trace) := by omega
  have hsum2 : summaries (main S s).world.trace =
      [{ total := files.length,
         success := files.length - failures (convertCalls (main S s).world.trace),
         failed := failures (convertCalls (main S s).world.trace), skipped := 0 }] := by
    rw [hsum, hsucc]
  refine ⟨hcalls, by omega, hsum2, ?_, ?_⟩
  · obtain ⟨before, es, q5, q6, hq5, hq6, htrace, hb1, _, _, _, _, _, hfiles, _⟩ :=
      main_shape_of_scanned S s files hscan hne
    refine ⟨before ++ es ++ q5, _, q6, htrace, ?_, convertCalls_quiet hq6⟩
    simp only [convertCalls_append, hb1, convertCalls_quiet hq5, List.nil_append,
      List.append_nil, hfiles]
  · intro h3 h1
    rw [hsum2, h3, h1]

theorem main_stats_witness :
    Event.scanDirectory demoSys.INPUT_DIR
        (.ok (supportedFiles demoSys.join "/app/data/input" ["a.doc", "b.docx", "c.PPT"])) ∈
        (main demoSys demoThree).world.trace ∧
      supportedFiles demoSys.join "/app/data/input" ["a.doc", "b.docx", "c.PPT"] ≠ [] ∧
      summaries (main demoSys demoThree).world.trace =
        [{ total := 3, success := 2, failed := 1, skipped := 0 }] :=
  ⟨by decide, by decide,
    (main_stats demoSys demoThree
      (supportedFiles demoSys.join "/app/data/input" ["a.doc", "b.docx", "c.PPT"])
      (by decide) (by decide)).2.2.2.2 (by decide) (by decide)⟩

theorem quiet_isWork {q : List Event} (hq : Quiet q) : ∀ e ∈ q, e.isWork = false := by
  intro e he
  have := hq e he
  cases e <;> simp_all [Event.isLogger, Event.isWork]

theorem quiet_isThrown {q : List Event} (hq : Quiet q) : ∀ e ∈ q, e.isThrown = false := by
  intro e he
  have := hq e he
  cases e <;> simp_all [Event.isLogger, Event.isThrown]

theorem conversion_isThrown {es : List Event} (hes : ∀ e ∈ es, e.isConversion = true) :
    ∀ e ∈ es, e.isThrown = false := by
  intro e he
  have := hes e he
  cases e <;> simp_all [Event.isConversion, Event.isThrown]

theorem getLast_snoc (p r : List Event) (e : Event) :
    (p ++ (r ++ [e])).getLast? = some e := by
  rw [← List.append_assoc, List.getLast?_concat]

/-- The three kinds of continuation: an error is thrown outside `convertToPdf`; the
scan finds nothing; the scan finds files. -/
theorem continues_cases {σ : Type} (S : Sys σ) (rest : List Event) (code : Nat)
    (h : Continues S rest code) :
    (∀ r, Event.checkLibreOfficeInstallation r ∉ rest) ∧
    ((code = 1 ∧ exits rest = [1] ∧ (∃ r, rest = r ++ [.exit 1]) ∧
        convertCalls rest = [] ∧ summaries rest = [] ∧ writes rest = [] ∧
        (∃ e ∈ rest, e.isThrown = true) ∧
        (∀ l, Event.readdir S.INPUT_DIR (.ok l) ∉ rest) ∧
        ∀ l, Event.scanDirectory S.INPUT_DIR (.ok l) ∉ rest) ∨
      (code = 0 ∧ exits rest = [0] ∧ (∃ r, rest = r ++ [.exit 0]) ∧
        convertCalls rest = [] ∧ summaries rest = [] ∧ writes rest = [] ∧
        (∀ e ∈ rest, e.isThrown = false) ∧
        ∃ listing, (∀ l, Event.readdir S.INPUT_DIR (.ok l) ∈ rest ↔ l = listing) ∧
          supportedFiles S.join S.INPUT_DIR listing = [] ∧
          ∀ l, Event.scanDirectory S.INPUT_DIR (.ok l) ∈ rest ↔ l = []) ∨
      ((∀ e ∈ rest, e.isThrown = false) ∧
        ∃ listing, (∀ l, Event.readdir S.INPUT_DIR (.ok l) ∈ rest ↔ l = listing) ∧
          supportedFiles S.join S.INPUT_DIR listing ≠ [] ∧
          ∀ l, Event.scanDirectory S.INPUT_DIR (.ok l) ∈ rest ↔
            l = supportedFiles S.join S.INPUT_DIR listing)) := by
  rcases h with ⟨m, q, hq, hcode, hrest⟩ | ⟨m, q, hq, hcode, hrest⟩ |
    ⟨q3, m, q, hq3, hq, hcode, hrest⟩ | ⟨q3, m, q, hq3, hq, hcode, hrest⟩ |
    ⟨q3, listing, q, hq3, hq, hcode, hempty, hrest⟩ |
    ⟨q3, listing, q4, es, q5, q6, hq3, hq4, hq5, hq6, hcode, hempty, hrest, hconv, hfiles,
      hwrites⟩
  · subst hrest
    refine ⟨?_, Or.inl ⟨hcode, ?_, ⟨_, rfl⟩, ?_, ?_, ?_, ⟨.ensureDir S.INPUT_DIR (.error m),
      by simp, rfl⟩, ?_, ?_⟩⟩
    · intro r
      simp [not_mem_quiet hq (.checkLibreOfficeInstallation r) rfl]
    · simp only [exits_append, exits_quiet hq, List.append_nil]
      rfl
    · simp only [convertCalls_append, convertCalls_quiet hq, List.append_nil]
      rfl
    · simp only [summaries_append, summaries_quiet hq, List.append_nil]
      rfl
    · simp only [writes_append, writes_quiet hq, List.append_nil]
      rfl
    · intro l
      simp [not_mem_quiet hq (.readdir S.INPUT_DIR (.ok l)) rfl]
    · intro l
      simp [not_mem_quiet hq (.scanDirectory S.INPUT_DIR (.ok l)) rfl]
  · subst hrest
    refine ⟨?_, Or.inl ⟨hcode, ?_, ⟨_, rfl⟩, ?_, ?_, ?_, ⟨.ensureDir S.OUTPUT_DIR (.error m),
      by simp, rfl⟩, ?_, ?_⟩⟩
    · intro r
      simp [not_mem_quiet hq (.checkLibreOfficeInstallation r) rfl]
    · simp only [exits_append, exits_quiet hq, List.append_nil]
      rfl
    · simp only [convertCalls_append, convertCalls_quiet hq, List.append_nil]
      rfl
    · simp only [summaries_append, summaries_quiet hq, List.append_nil]
      rfl
    · simp only [writes_append, writes_quiet hq, List.append_nil]
      rfl
    · intro l
      simp [not_mem_quiet hq (.readdir S.INPUT_DIR (.ok l)) rfl]
    · intro l
      simp [not_mem_quiet hq (.scanDirectory S.INPUT_DIR (.ok l)) rfl]
  · subst hrest
    refine ⟨?_, Or.inl ⟨hcode, ?_, ⟨_, rfl⟩, ?_, ?_, ?_, ⟨.ensureDir S.INPUT_DIR (.error m),
      by simp, rfl⟩, ?_, ?_⟩⟩
    · intro r
      simp [not_mem_quiet hq (.checkLibreOfficeInstallation r) rfl,
        not_mem_quiet hq3 (.checkLibreOfficeInstallation r) rfl]
    · simp only [exits_append, exits_quiet hq, exits_quiet hq3, List.append_nil]
      rfl
    · simp only [convertCalls_append, convertCalls_quiet hq, convertCalls_quiet hq3,
        List.append_nil]
      rfl
    · simp only [summaries_append, summaries_quiet hq, summaries_quiet hq3, List.append_nil]
      rfl
    · simp only [writes_append, writes_quiet hq, writes_quiet hq3, List.append_nil]
      rfl
    · intro l
      simp [not_mem_quiet hq (.readdir S.INPUT_DIR (.ok l)) rfl,
        not_mem_quiet hq3 (.readdir S.INPUT_DIR (.ok l)) rfl]
    · intro l
      simp [not_mem_quiet hq (.scanDirectory S.INPUT_DIR (.ok l)) rfl,
        not_mem_quiet hq3 (.scanDirectory S.INPUT_DIR (.ok l)) rfl]
  · subst hrest
    refine ⟨?_, Or.inl ⟨hcode, ?_, ⟨_, rfl⟩, ?_, ?_, ?_, ⟨.readdir S.INPUT_DIR (.error m),
      by simp, rfl⟩, ?_, ?_⟩⟩
    · intro r
      simp [not_mem_quiet hq (.checkLibreOfficeInstallation r) rfl,
        not_mem_quiet hq3 (.checkLibreOfficeInstallation r) rfl]
    · simp only [exits_append, exits_quiet hq, exits_quiet hq3, List.append_nil]
      rfl
    · simp only [convertCalls_append, convertCalls_quiet hq, convertCalls_quiet hq3,
        List.append_nil]
      rfl
    · simp only [summaries_append, summaries_quiet hq, summaries_quiet hq3, List.append_nil]
      rfl
    · simp only [writes_append, writes_quiet hq, writes_quiet hq3, List.append_nil]
      rfl
    · intro l
      simp [not_mem_quiet hq (.readdir S.INPUT_DIR (.ok l)) rfl,
        not_mem_quiet hq3 (.readdir S.INPUT_DIR (.ok l)) rfl]
    · intro l
      simp [not_mem_quiet hq (.scanDirectory S.INPUT_DIR (.ok l)) rfl,
        not_mem_quiet hq3 (.scanDirectory S.INPUT_DIR (.ok l)) rfl]
  · subst hrest
    refine ⟨?_, Or.inr (Or.inl ⟨hcode, ?_, ⟨_, rfl⟩, ?_, ?_, ?_, ?_, listing, ?_, hempty, ?_⟩)⟩
    · intro r
      simp [not_mem_quiet hq (.checkLibreOfficeInstallation r) rfl,
        not_mem_quiet hq3 (.checkLibreOfficeInstallation r) rfl]
    · simp only [exits_append, exits_quiet hq, exits_quiet hq3, List.append_nil]
      rfl
    · simp only [convertCalls_append, convertCalls_quiet hq, convertCalls_quiet hq3,
        List.append_nil]
      rfl
    · simp only [summaries_append, summaries_quiet hq, summaries_quiet hq3, List.append_nil]
      rfl
    · simp only [writes_append, writes_quiet hq, writes_quiet hq3, List.append_nil]
      rfl
    · simp only [List.forall_mem_append, List.forall_mem_cons]
      exact ⟨⟨⟨⟨⟨rfl, rfl, by simp⟩, quiet_isThrown hq3⟩, rfl, rfl, rfl, by simp⟩,
        quiet_isThrown hq⟩, rfl, by simp⟩
    · intro l
      simp [not_mem_quiet hq (.readdir S.INPUT_DIR (.ok l)) rfl,
        not_mem_quiet hq3 (.readdir S.INPUT_DIR (.ok l)) rfl]
    · intro l
      simp [not_mem_quiet hq (.scanDirectory S.INPUT_DIR (.ok l)) rfl,
        not_mem_quiet hq3 (.scanDirectory S.INPUT_DIR (.ok l)) rfl]
  · subst hrest
    refine ⟨?_, Or.inr (Or.inr ⟨?_, listing, ?_, hempty, ?_⟩)⟩
    · intro r
      simp [not_mem_quiet hq3 (.checkLibreOfficeInstallation r) rfl,
        not_mem_quiet hq4 (.checkLibreOfficeInstallation r) rfl,
        not_mem_quiet hq5 (.checkLibreOfficeInstallation r) rfl,
        not_mem_quiet hq6 (.checkLibreOfficeInstallation r) rfl,
        not_mem_conversion hconv (.checkLibreOfficeInstallation r) rfl]
    · simp only [List.forall_mem_append, List.forall_mem_cons]
      exact ⟨⟨⟨⟨⟨⟨⟨⟨rfl, rfl, by simp⟩, quiet_isThrown hq3⟩, rfl, rfl, rfl, by simp⟩,
        quiet_isThrown hq4⟩, conversion_isThrown hconv⟩, quiet_isThrown hq5⟩, rfl, by simp⟩,
        quiet_isThrown hq6⟩
    · intro l
      simp [not_mem_quiet hq3 (.readdir S.INPUT_DIR (.ok l)) rfl,
        not_mem_quiet hq4 (.readdir S.INPUT_DIR (.ok l)) rfl,
        not_mem_quiet hq5 (.readdir S.INPUT_DIR (.ok l)) rfl,
        not_mem_quiet hq6 (.readdir S.INPUT_DIR (.ok l)) rfl,
        not_mem_conversion hconv (.readdir S.INPUT_DIR (.ok l)) rfl]
    · intro l
      simp [not_mem_quiet hq3 (.scanDirectory S.INPUT_DIR (.ok l)) rfl,
        not_mem_quiet hq4 (.scanDirectory S.INPUT_DIR (.ok l)) rfl,
        not_mem_quiet hq5 (.scanDirectory S.INPUT_DIR (.ok l)) rfl,
        not_mem_quiet hq6 (.scanDirectory S.INPUT_DIR (.ok l)) rfl,
        not_mem_conversion hconv (.scanDirectory S.INPUT_DIR (.ok l)) rfl]

/-- The four kinds of run of `main`: LibreOffice is not available; an error is thrown
outside `convertToPdf`; the scan finds nothing; the scan finds files. -/
theorem main_cases {σ : Type} (S : Sys σ) (s : σ) :
    (∀ r, Event.checkLibreOfficeInstallation r ∈ (main S s).world.trace ↔
      r = (checkLibreOfficeInstallation S ⟨s, []⟩).1) ∧
    (((checkLibreOfficeInstallation S ⟨s, []⟩).1.isAvailable = false ∧
        (main S s).exitCode = 1 ∧ exits (main S s).world.trace = [1] ∧
        (main S s).world.trace.getLast? = some (.exit 1) ∧
        summaries (main S s).world.trace = [] ∧
        (∀ e ∈ (main S s).world.trace, e.isWork = false) ∧
        ∀ e ∈ (main S s).world.trace, e.isThrown = false) ∨
      ((checkLibreOfficeInstallation S ⟨s, []⟩).1.isAvailable = true ∧
        (main S s).exitCode = 1 ∧ exits (main S s).world.trace = [1] ∧
        (main S s).world.trace.getLast? = some (.exit 1) ∧
        convertCalls (main S s).world.trace = [] ∧ summaries (main S s).world.trace = [] ∧
        writes (main S s).world.trace = [] ∧
        (∃ e ∈ (main S s).world.trace, e.isThrown = true) ∧
        (∀ l, Event.readdir S.INPUT_DIR (.ok l) ∉ (main S s).world.trace) ∧
        ∀ l, Event.scanDirectory S.INPUT_DIR (.ok l) ∉ (main S s).world.trace) ∨
      ((checkLibreOfficeInstallation S ⟨s, []⟩).1.isAvailable = true ∧
        (main S s).exitCode = 0 ∧ exits (main S s).world.trace = [0] ∧
        (main S s).world.trace.getLast? = some (.exit 0) ∧
        convertCalls (main S s).world.trace = [] ∧ summaries (main S s).world.trace = [] ∧
        writes (main S s).world.trace = [] ∧
        (∀ e ∈ (main S s).world.trace, e.isThrown = false) ∧
        ∃ listing, (∀ l, Event.readdir S.INPUT_DIR (.ok l) ∈ (main S s).world.trace ↔
            l = listing) ∧
          supportedFiles S.join S.INPUT_DIR listing = [] ∧
          ∀ l, Event.scanDirectory S.INPUT_DIR (.ok l) ∈ (main S s).world.trace ↔ l = []) ∨
      ((checkLibreOfficeInstallation S ⟨s, []⟩).1.isAvailable = true ∧
        (∀ e ∈ (main S s).world.trace, e.isThrown = false) ∧
        ∃ listing, (∀ l, Event.readdir S.INPUT_DIR (.ok l) ∈ (main S s).world.trace ↔
            l = listing) ∧
          supportedFiles S.join S.INPUT_DIR listing ≠ [] ∧
          ∀ l, Event.scanDirectory S.INPUT_DIR (.ok l) ∈ (main S s).world.trace ↔
            l = supportedFiles S.join S.INPUT_DIR listing)) := by
  obtain ⟨q1, q2, x, chk, rest, hq1, hq2, htrace, hchk, hcase⟩ := main_shape S s
  rw [← hchk]
  have hcheck : ∀ rest2 : List Event,
      (∀ r, Event.checkLibreOfficeInstallation r ∉ rest2) →
      (main S s).world.trace = q1 ++ [.exec "which libreoffice || where libreoffice" x,
          .checkLibreOfficeInstallation chk] ++ q2 ++ rest2 →
      ∀ r, Event.checkLibreOfficeInstallation r ∈ (main S s).world.trace ↔ r = chk := by
    intro rest2 hr2 ht r
    rw [ht]
    have n1 := not_mem_quiet hq1 (.checkLibreOfficeInstallation r) rfl
    have n2 := not_mem_quiet hq2 (.checkLibreOfficeInstallation r) rfl
    simp [n1, n2, hr2 r]
  have hPe : exits (q1 ++ [.exec "which libreoffice || where libreoffice" x,
      .checkLibreOfficeInstallation chk] ++ q2) = [] := by
    simp only [exits_append, exits_quiet hq1, exits_quiet hq2, List.append_nil]
    rfl
  have hPc : convertCalls (q1 ++ [.exec "which libreoffice || where libreoffice" x,
      .checkLibreOfficeInstallation chk] ++ q2) = [] := by
    simp only [convertCalls_append, convertCalls_quiet hq1, convertCalls_quiet hq2,
      List.append_nil]
    rfl
  have hPs : summaries (q1 ++ [.exec "which libreoffice || where libreoffice" x,
      .checkLibreOfficeInstallation chk] ++ q2) = [] := by
    simp only [summaries_append, summaries_quiet hq1, summaries_quiet hq2, List.append_nil]
    rfl
  have hPw : writes (q1 ++ [.exec "which libreoffice || where libreoffice" x,
      .checkLibreOfficeInstallation chk] ++ q2) = [] := by
    simp only [writes_append, writes_quiet hq1, writes_quiet hq2, List.append_nil]
    rfl
  have hPt : ∀ e ∈ q1 ++ [.exec "which libreoffice || where libreoffice" x,
      .checkLibreOfficeInstallation chk] ++ q2, e.isThrown = false := by
    simp only [List.forall_mem_append, List.forall_mem_cons]
    exact ⟨⟨quiet_isThrown hq1, rfl, rfl, by simp⟩, quiet_isThrown hq2⟩
  have hPk : ∀ e ∈ q1 ++ [.exec "which libreoffice || where libreoffice" x,
      .checkLibreOfficeInstallation chk] ++ q2, e.isWork = false := by
    simp only [List.forall_mem_append, List.forall_mem_cons]
    exact ⟨⟨quiet_isWork hq1, rfl, rfl, by simp⟩, quiet_isWork hq2⟩
  have hPr : ∀ l, Event.readdir S.INPUT_DIR (.ok l) ∉
      q1 ++ [.exec "which libreoffice || where libreoffice" x,
        .checkLibreOfficeInstallation chk] ++ q2 := by
    intro l h
    have := hPk _ h
    cases this
  have hPd : ∀ l, Event.scanDirectory S.INPUT_DIR (.ok l) ∉
      q1 ++ [.exec "which libreoffice || where libreoffice" x,
        .checkLibreOfficeInstallation chk] ++ q2 := by
    intro l h
    have := hPk _ h
    cases this
  rcases hcase with ⟨hav, hrest, hexit⟩ | ⟨hav, hcont⟩
  · subst hrest
    refine ⟨hcheck _ (by simp) htrace, Or.inl ⟨hav, hexit, ?_, ?_, ?_, ?_, ?_⟩⟩
    · rw [htrace, exits_append, hPe]
      rfl
    · rw [htrace, List.getLast?_concat]
    · rw [htrace, summaries_append, hPs]
      rfl
    · rw [htrace]
      exact List.forall_mem_append.mpr ⟨hPk, by simp [Event.isWork]⟩
    · rw [htrace]
      exact List.forall_mem_append.mpr ⟨hPt, by simp [Event.isThrown]⟩
  · obtain ⟨hnochk, hc⟩ := continues_cases S rest _ hcont
    refine ⟨hcheck rest hnochk htrace, Or.inr ?_⟩
    rcases hc with ⟨hcode, he, ⟨r, hr⟩, hcc, hs, hw, ⟨e, hemem, hethrown⟩, hrd, hsd⟩ |
      ⟨hcode, he, ⟨r, hr⟩, hcc, hs, hw, hthrown, listing, hrd, hempty, hsd⟩ |
      ⟨hthrown, listing, hrd, hempty, hsd⟩
    · refine Or.inl ⟨hav, hcode, ?_, ?_, ?_, ?_, ?_, ⟨e, ?_, hethrown⟩, ?_, ?_⟩
      · rw [htrace, exits_append, hPe, he]
        rfl
      · rw [htrace, hr, getLast_snoc]
      · rw [htrace, convertCalls_append, hPc, hcc]
        rfl
      · rw [htrace, summaries_append, hPs, hs]
        rfl
      · rw [htrace, writes_append, hPw, hw]
        rfl
      · rw [htrace]
        exact List.mem_append_right _ hemem
      · intro l h
        rw [htrace] at h
        rcases List.mem_append.mp h with h | h
        · exact hPr l h
        · exact hrd l h
      · intro l h
        rw [htrace] at h
        rcases List.mem_append.mp h with h | h
        · exact hPd l h
        · exact hsd l h
    · refine Or.inr (Or.inl ⟨hav, hcode, ?_, ?_, ?_, ?_, ?_, ?_, listing, ?_, hempty, ?_⟩)
      · rw [htrace, exits_append, hPe, he]
        rfl
      · rw [htrace, hr, getLast_snoc]
      · rw [htrace, convertCalls_append, hPc, hcc]
        rfl
      · rw [htrace, summaries_append, hPs, hs]
        rfl
      · rw [htrace, writes_append, hPw, hw]
        rfl
      · rw [htrace]
        exact List.forall_mem_append.mpr ⟨hPt, hthrown⟩
      · intro l
        rw [htrace, List.mem_append, hrd l]
        exact ⟨fun h => h.elim (fun h => absurd h (hPr l)) id, Or.inr⟩
      · intro l
        rw [htrace, List.mem_append, hsd l]
        exact ⟨fun h => h.elim (fun h => absurd h (hPd l)) id, Or.inr⟩
    · refine Or.inr (Or.inr ⟨hav, ?_, listing, ?_, hempty, ?_⟩)
      · rw [htrace]
        exact List.forall_mem_append.mpr ⟨hPt, hthrown⟩
      · intro l
        rw [htrace, List.mem_append, hrd l]
        exact ⟨fun h => h.elim (fun h => absurd h (hPr l)) id, Or.inr⟩
      · intro l
        rw [htrace, List.mem_append, hsd l]
        exact ⟨fun h => h.elim (fun h => absurd h (hPd l)) id, Or.inr⟩

/-- The loop on a list is the loop on a first part followed by the loop on the rest. -/
theorem convertLoop_append {σ : Type} (S : Sys σ) (a b : List FileDescriptor) (stats : Stats)
    (w : World σ) :
    convertLoop S (a ++ b) stats w =
      convertLoop S b (convertLoop S a stats w).1 (convertLoop S a stats w).2 := by
  induction a generalizing stats w with
  | nil => rfl
  | cons file a ih =>
    simp only [List.cons_append, convertLoop]
    split_ifs
    · exact ih _ _
    · exact ih _ _

/-- C6: for every list of files and every behaviour of the conversions, after `i`
files have been processed the loop has `success + failed = i`, `skipped = 0` and
`total` still equal to the number of files; the whole loop is the loop on the first
`i` files continued on the others from that state; at completion
`total = success + failed + skipped`; and every `stats` object that a run of `main`
passes to the summary has `skipped = 0` and `total = success + failed + skipped`. -/
theorem convertLoop_invariant {σ : Type} (S : Sys σ) (files : List FileDescriptor)
    (w : World σ) (s : σ) (i : Nat) (hi : i ≤ files.length) :
    convertLoop S files (initialStats files.length) w =
        convertLoop S (files.drop i)
          (convertLoop S (files.take i) (initialStats files.length) w).1
          (convertLoop S (files.take i) (initialStats files.length) w).2 ∧
      (convertLoop S (files.take i) (initialStats files.length) w).1.success +
        (convertLoop S (files.take i) (initialStats files.length) w).1.failed = i ∧
      (convertLoop S (files.take i) (initialStats files.length) w).1.skipped = 0 ∧
      (convertLoop S (files.take i) (initialStats files.length) w).1.total = files.length ∧
      (convertLoop S files (initialStats files.length) w).1.total =
        (convertLoop S files (initialStats files.length) w).1.success +
          (convertLoop S files (initialStats files.length) w).1.failed +
          (convertLoop S files (initialStats files.length) w).1.skipped ∧
      ∀ stats ∈ summaries (main S s).world.trace,
        stats.skipped = 0 ∧ stats.total = stats.success + stats.failed + stats.skipped := by
  have key : ∀ (l : List FileDescriptor),
      (convertLoop S l (initialStats files.length) w).1.success +
        (convertLoop S l (initialStats files.length) w).1.failed = l.length ∧
      (convertLoop S l (initialStats files.length) w).1.skipped = 0 ∧
      (convertLoop S l (initialStats files.length) w).1.total = files.length := by
    intro l
    obtain ⟨es, _, _, hfiles, hstats, _⟩ := convertLoop_spec S l (initialStats files.length) w
    have hlen : (convertCalls es).length = l.length := by
      rw [← hfiles, List.length_map]
    have hadd := succeeded_add_failures (convertCalls es)
    rw [hstats]
    simp only [initialStats]
    refine ⟨?_, trivial, trivial⟩
    omega
  have hk := key (files.take i)
  have hfin := key files
  have htake : (files.take i).length = i := by
    rw [List.length_take]
    omega
  rw [htake] at hk
  refine ⟨?_, hk.1, hk.2.1, hk.2.2, ?_, ?_⟩
  · rw [← convertLoop_append, List.take_append_drop]
  · omega
  · intro stats hstats
    rcases (main_cases S s).2 with ⟨_, _, _, _, hs, _⟩ | ⟨_, _, _, _, _, hs, _⟩ |
      ⟨_, _, _, _, _, hs, _⟩ | ⟨_, _, listing, _, hempty, hsd⟩
    · rw [hs] at hstats
      cases hstats
    · rw [hs] at hstats
      cases hstats
    · rw [hs] at hstats
      cases hstats
    · obtain ⟨hcalls, hsum, _⟩ := main_projections_of_scanned S s _ ((hsd _).mpr rfl) hempty
      have hlen : (convertCalls (main S s).world.trace).length =
          (supportedFiles S.join S.INPUT_DIR listing).length := by
        rw [← hcalls, List.length_map]
      have hadd := succeeded_add_failures (convertCalls (main S s).world.trace)
      rw [hsum, List.mem_singleton] at hstats
      subst hstats
      refine ⟨rfl, ?_⟩
      simp only
      omega

theorem convertLoop_invariant_witness :
    2 ≤ (supportedFiles demoSys.join "/app/data/input" ["a.doc", "b.docx", "c.PPT"]).length ∧
      (convertLoop demoSys
        ((supportedFiles demoSys.join "/app/data/input" ["a.doc", "b.docx", "c.PPT"]).take 2)
        (initialStats
          (supportedFiles demoSys.join "/app/data/input" ["a.doc", "b.docx", "c.PPT"]).length)
        ⟨demoThree, []⟩).1.success +
      (convertLoop demoSys
        ((supportedFiles demoSys.join "/app/data/input" ["a.doc", "b.docx", "c.PPT"]).take 2)
        (initialStats
          (supportedFiles demoSys.join "/app/data/input" ["a.doc", "b.docx", "c.PPT"]).length)
        ⟨demoThree, []⟩).1.failed = 2 :=
  ⟨by decide,
    (convertLoop_invariant demoSys
      (supportedFiles demoSys.join "/app/data/input" ["a.doc", "b.docx", "c.PPT"])
      ⟨demoThree, []⟩ demoThree 2 (by decide)).2.1⟩

/-- C7: whenever the call of `checkLibreOfficeInstallation` made by `main` reports
`isAvailable = false`, the run ends with `process.exit(1)` and exit status 1, and its
trace holds no event of the file system, of the scanner or of the converter: no
`ensureDir`, no `readdir`, no `scanDirectory`, no `convertToPdf`, no read, render or
write, whatever the system and its input directory are. -/
theorem main_unavailable {σ : Type} (S : Sys σ) (s : σ) (r : InstallationCheck)
    (hr : Event.checkLibreOfficeInstallation r ∈ (main S s).world.trace)
    (hav : r.isAvailable = false) :
    (main S s).exitCode = 1 ∧
      exits (main S s).world.trace = [1] ∧
      (main S s).world.trace.getLast? = some (.exit 1) ∧
      (∀ e ∈ (main S s).world.trace, e.isWork = false) ∧
      (∀ path result, Event.ensureDir path result ∉ (main S s).world.trace) ∧
      (∀ path result, Event.readdir path result ∉ (main S s).world.trace) ∧
      (∀ dirPath result, Event.scanDirectory dirPath result ∉ (main S s).world.trace) ∧
      (∀ file outputDir result,
        Event.convertToPdf file outputDir result ∉ (main S s).world.trace) ∧
      convertCalls (main S s).world.trace = [] ∧
      summaries (main S s).world.trace = [] := by
  obtain ⟨hchk, hcase⟩ := main_cases S s
  have hrr := (hchk r).mp hr
  rw [hrr] at hav
  rcases hcase with ⟨_, hexit, he, hlast, hs, hwork, _⟩ | ⟨h, _⟩ | ⟨h, _⟩ | ⟨h, _⟩
  · refine ⟨hexit, he, hlast, hwork, ?_, ?_, ?_, ?_, ?_, hs⟩
    · intro path result h
      have := hwork _ h
      cases this
    · intro path result h
      have := hwork _ h
      cases this
    · intro path result h
      have := hwork _ h
      cases this
    · intro file outputDir result h
      have := hwork _ h
      cases this
    · rw [convertCalls, List.filterMap_eq_nil_iff]
      intro e he
      have := hwork e he
      cases e <;> simp_all [Event.isWork]
  · rw [h] at hav
    cases hav
  · rw [h] at hav
    cases hav
  · rw [h] at hav
    cases hav

theorem main_unavailable_witness :
    Event.checkLibreOfficeInstallation
        { isAvailable := false, path := none,
          error := some "LibreOffice not found in system PATH" } ∈
        (main demoSys demoUnavailable).world.trace ∧
      (main demoSys demoUnavailable).exitCode = 1 ∧
      exits (main demoSys demoUnavailable).world.trace = [1] :=
  ⟨by decide,
    (main_unavailable demoSys demoUnavailable
      { isAvailable := false, path := none,
        error := some "LibreOffice not found in system PATH" } (by decide) rfl).1,
    by decide⟩

/-- A run in a world that lets `main` list the input directory: up to the return of
`scanDirectory` the run is fixed, and it goes on with the exit of the empty case or
with the conversions. -/
theorem main_of_reachesListing {σ : Type} (S : Sys σ) (s : σ) (listing : List String)
    (h : ReachesListing S s listing) :
    ∃ W : World σ,
      W.state = (S.readdir S.INPUT_DIR
        (S.ensureDir S.INPUT_DIR (afterEnsureOutput S s)).2).2 ∧
      Event.readdir S.INPUT_DIR (.ok listing) ∈ W.trace ∧
      main S s =
        if (supportedFiles S.join S.INPUT_DIR listing).length = 0 then
          { world := W.emits
              [ .logger "warning" "No files found to convert",
                .logger "log" "",
                .logger "info"
                  ("Please place your files (.doc, .docx, .ppt, .pptx) in: " ++ S.INPUT_DIR),
                .logger "log" "",
                .exit 0 ]
            exitCode := 0 }
        else convertAndSummarise S (supportedFiles S.join S.INPUT_DIR listing) W := by
  obtain ⟨⟨stdout, h0⟩, h1, h2, h3, h4⟩ := h
  simp only [afterProbe, afterEnsureInput, afterEnsureOutput] at h1 h2 h3 h4
  refine ⟨(scanDirectory S S.INPUT_DIR
      ⟨(S.ensureDir S.OUTPUT_DIR (S.ensureDir S.INPUT_DIR
          (S.exec "which libreoffice || where libreoffice" s).2).2).2,
        [ .logger "header" "📄 Office Document to PDF Converter", .logger "log" "",
          .logger "info" "Checking LibreOffice installation...",
          .exec "which libreoffice || where libreoffice" (.ok stdout),
          .checkLibreOfficeInstallation
            { isAvailable := true, path := some (trim stdout), error := none },
          .logger "success" ("LibreOffice found at: " ++ trim stdout), .logger "log" "",
          .ensureDir S.INPUT_DIR (.ok ()), .ensureDir S.OUTPUT_DIR (.ok ()),
          .logger "info" "Scanning input directory..." ]⟩).2, ?_, ?_, ?_⟩
  · simp [scanDirectory, World.call, World.emit, h3, h4, afterEnsureOutput, afterEnsureInput,
      afterProbe]
  · simp [scanDirectory, World.call, World.emit, h3, h4]
  · simp [main, checkLibreOfficeInstallation, scanAndConvert, scanDirectory, World.call,
      World.emits, World.emit, h0, h1, h2, h3, h4]

/-- C8: whenever the world lets `main` list the input directory (the probe finds
LibreOffice, `ensureDir` succeeds on the input and on the output directory, and the
input directory can be read) and no entry listed is supported, in particular when the
directory has no entries, `scanDirectory` returns the empty list, the run ends with
`process.exit(0)` and exit status 0, `convertToPdf` is never called, nothing is
written, and the world is left in the state in which `readdir` left it. -/
theorem main_no_files {σ : Type} (S : Sys σ) (s : σ) (listing : List String)
    (hworld : ReachesListing S s listing)
    (hnone : ∀ name ∈ listing, isSupported name = false) :
    (checkLibreOfficeInstallation S ⟨s, []⟩).1.isAvailable = true ∧
      Event.readdir S.INPUT_DIR (.ok listing) ∈ (main S s).world.trace ∧
      supportedFiles S.join S.INPUT_DIR listing = [] ∧
      Event.scanDirectory S.INPUT_DIR (.ok []) ∈ (main S s).world.trace ∧
      (main S s).exitCode = 0 ∧
      exits (main S s).world.trace = [0] ∧
      (main S s).world.trace.getLast? = some (.exit 0) ∧
      convertCalls (main S s).world.trace = [] ∧
      summaries (main S s).world.trace = [] ∧
      writes (main S s).world.trace = [] ∧
      (main S s).world.state =
        (S.readdir S.INPUT_DIR (S.ensureDir S.INPUT_DIR (afterEnsureOutput S s)).2).2 := by
  have hsup : supportedFiles S.join S.INPUT_DIR listing = [] := by
    simp only [supportedFiles, List.map_eq_nil_iff, List.filter_eq_nil_iff]
    intro name hn
    have := hnone name hn
    rw [scanFilter_eq_isSupported, this]
    simp
  obtain ⟨W, hstate, hmem, hmain⟩ := main_of_reachesListing S s listing hworld
  rw [hsup] at hmain
  simp only [List.length_nil, if_true] at hmain
  have hread : Event.readdir S.INPUT_DIR (.ok listing) ∈ (main S s).world.trace := by
    rw [hmain]
    exact List.mem_append_left _ hmem
  have hfinal : (main S s).world.state =
      (S.readdir S.INPUT_DIR (S.ensureDir S.INPUT_DIR (afterEnsureOutput S s)).2).2 := by
    rw [hmain]
    exact hstate
  rcases (main_cases S s).2 with ⟨_, _, _, _, _, hwork, _⟩ | ⟨_, _, _, _, _, _, _, _, hrd, _⟩ |
    ⟨hav, hexit, he, hlast, hcc, hs, hw, _, listing2, hrd, hempty, hsd⟩ |
    ⟨_, _, listing2, hrd, hempty, _⟩
  · have := hwork _ hread
    cases this
  · exact absurd hread (hrd listing)
  · exact ⟨hav, hread, hsup, (hsd []).mpr rfl, hexit, he, hlast, hcc, hs, hw, hfinal⟩
  · have hl := (hrd listing).mp hread
    rw [← hl] at hempty
    exact absurd hsup hempty

theorem main_no_files_witness :
    ReachesListing demoSys demoNoSupported ["notes.txt", "report.pdf"] ∧
      (∀ name ∈ ["notes.txt", "report.pdf"], isSupported name = false) ∧
      ReachesListing demoSys demoEmptyDir [] ∧
      (main demoSys demoNoSupported).exitCode = 0 ∧
      (main demoSys demoEmptyDir).exitCode = 0 ∧
      Event.scanDirectory demoSys.INPUT_DIR (.ok []) ∈
        (main demoSys demoEmptyDir).world.trace ∧
      convertCalls (main demoSys demoNoSupported).world.trace = [] ∧
      convertCalls (main demoSys demoEmptyDir).world.trace = [] :=
  ⟨⟨⟨_, rfl⟩, rfl, rfl, rfl, rfl⟩, by decide, ⟨⟨_, rfl⟩, rfl, rfl, rfl, rfl⟩,
    (main_no_files demoSys demoNoSupported ["notes.txt", "report.pdf"]
      ⟨⟨_, rfl⟩, rfl, rfl, rfl, rfl⟩ (by decide)).2.2.2.2.1,
    (main_no_files demoSys demoEmptyDir [] ⟨⟨_, rfl⟩, rfl, rfl, rfl, rfl⟩
      (by decide)).2.2.2.2.1,
    (main_no_files demoSys demoEmptyDir [] ⟨⟨_, rfl⟩, rfl, rfl, rfl, rfl⟩
      (by decide)).2.2.2.1,
    by decide, by decide⟩

/-- C8 as stated fails: in the example system whose output directory cannot be
created, LibreOffice is available and the input directory has no entries, yet the run
ends with exit status 1 after `process.exit(1)`; the only events of the file system
are the two calls of `ensureDir`, so the directory is never scanned. -/
theorem main_no_files_counterexample :
    (checkLibreOfficeInstallation outFailSys ⟨demoEmptyDir, []⟩).1.isAvailable = true ∧
      (outFailSys.readdir outFailSys.INPUT_DIR demoEmptyDir).1 = .ok [] ∧
      (main outFailSys demoEmptyDir).world.state = demoEmptyDir ∧
      (main outFailSys demoEmptyDir).exitCode = 1 ∧
      ¬ (main outFailSys demoEmptyDir).exitCode = 0 ∧
      exits (main outFailSys demoEmptyDir).world.trace = [1] ∧
      (main outFailSys demoEmptyDir).world.trace.filter Event.isWork =
        [.ensureDir "/app/data/input" (.ok ()),
         .ensureDir "/app/data/output"
           (.error "EACCES: permission denied, mkdir /app/data/output")] ∧
      Event.scanDirectory outFailSys.INPUT_DIR (.ok []) ∉
        (main outFailSys demoEmptyDir).world.trace := by
  decide

/-- C9: conversion failures do not change the exit status.  In every run whose scan
returned a non-empty list of files, whatever the outcome of each conversion and also
when all of them fail, the summary is reached exactly once, `process.exit` is not
called and the exit status is 0.  The exit status of a run is 0 or 1, and it is 1
exactly when LibreOffice is not available or an error is thrown outside
`convertToPdf` (by `ensureDir`, `readdir` or `scanDirectory`); a run that ends with
status 1 has not called `convertToPdf` at all. -/
theorem main_exit_code {σ : Type} (S : Sys σ) (s : σ) :
    (∀ files, Event.scanDirectory S.INPUT_DIR (.ok files) ∈ (main S s).world.trace →
      files ≠ [] →
      (summaries (main S s).world.trace).length = 1 ∧
        exits (main S s).world.trace = [] ∧ (main S s).exitCode = 0) ∧
    ((main S s).exitCode = 0 ∨ (main S s).exitCode = 1) ∧
    ((main S s).exitCode = 1 ↔
      ((checkLibreOfficeInstallation S ⟨s, []⟩).1.isAvailable = false ∨
        ∃ e ∈ (main S s).world.trace, e.isThrown = true)) ∧
    ((main S s).exitCode = 1 → convertCalls (main S s).world.trace = []) := by
  have hfirst : ∀ files, Event.scanDirectory S.INPUT_DIR (.ok files) ∈ (main S s).world.trace →
      files ≠ [] →
      (summaries (main S s).world.trace).length = 1 ∧
        exits (main S s).world.trace = [] ∧ (main S s).exitCode = 0 := by
    intro files hscan hne
    obtain ⟨_, hsum, he, hexit, _⟩ := main_projections_of_scanned S s files hscan hne
    refine ⟨?_, he, hexit⟩
    rw [hsum]
    rfl
  refine ⟨hfirst, ?_⟩
  rcases (main_cases S s).2 with ⟨hav, hexit, _, _, _, hwork, _⟩ |
    ⟨hav, hexit, _, _, hcc, _, _, hthrown, _⟩ |
    ⟨hav, hexit, _, _, hcc, _, _, hthrown, _⟩ |
    ⟨hav, hthrown, listing, _, hempty, hsd⟩
  · refine ⟨Or.inr hexit, ⟨fun _ => Or.inl hav, fun _ => hexit⟩, fun _ => ?_⟩
    rw [convertCalls, List.filterMap_eq_nil_iff]
    intro e he
    have := hwork e he
    cases e <;> simp_all [Event.isWork]
  · exact ⟨Or.inr hexit, ⟨fun _ => Or.inr hthrown, fun _ => hexit⟩, fun _ => hcc⟩
  · refine ⟨Or.inl hexit, ⟨fun h => ?_, fun h => ?_⟩, fun _ => hcc⟩
    · rw [hexit] at h
      cases h
    · rcases h with h | ⟨e, he, ht⟩
      · rw [hav] at h
        cases h
      · rw [hthrown e he] at ht
        cases ht
  · have hexit := (hfirst _ ((hsd _).mpr rfl) hempty).2.2
    refine ⟨Or.inl hexit, ⟨fun h => ?_, fun h => ?_⟩, fun h => ?_⟩
    · rw [hexit] at h
      cases h
    · rcases h with h | ⟨e, he, ht⟩
      · rw [hav] at h
        cases h
      · rw [hthrown e he] at ht
        cases ht
    · rw [hexit] at h
      cases h

theorem main_exit_code_witness :
    Event.scanDirectory demoSys.INPUT_DIR
        (.ok (supportedFiles demoSys.join "/app/data/input" ["a.doc", "b.pptx"])) ∈
        (main demoSys demoAllFail).world.trace ∧
      supportedFiles demoSys.join "/app/data/input" ["a.doc", "b.pptx"] ≠ [] ∧
      failures (convertCalls (main demoSys demoAllFail).world.trace) = 2 ∧
      (main demoSys demoAllFail).exitCode = 0 :=
  ⟨by decide, by decide, by decide,
    ((main_exit_code demoSys demoAllFail).1
      (supportedFiles demoSys.join "/app/data/input" ["a.doc", "b.pptx"])
      (by decide) (by decide)).2.2⟩

theorem append_pdf_injective (a b : String) (h : a ++ ".pdf" = b ++ ".pdf") : a = b := by
  have h2 : (a ++ ".pdf").data = (b ++ ".pdf").data := congrArg String.data h
  rw [String.data_append, String.data_append] at h2
  exact String.ext (List.append_cancel_right h2)

/-- C10: the mapping from scanned names to output names is not injective.  The two
distinct supported entries `report.doc` and `report.docx` get descriptors with the
same `baseName`; in every run that lists exactly these two entries and in which both
conversions succeed, both writes go to the same path, `OUTPUT_DIR` joined with
`report.pdf`, while the summary counts `success = 2`; in the example system, where a
write replaces the file, the output directory ends with one file holding the later
conversion.  Conversely, two successful conversions of descriptors whose `baseName`s
differ return different output names. -/
theorem output_name_collision {σ : Type} (S : Sys σ) (s : σ) :
    ("report.doc" ≠ "report.docx" ∧ isSupported "report.doc" = true ∧
      isSupported "report.docx" = true ∧
      (scanMap S.join S.INPUT_DIR "report.doc").baseName = "report" ∧
      (scanMap S.join S.INPUT_DIR "report.docx").baseName = "report") ∧
    (Event.readdir S.INPUT_DIR (.ok ["report.doc", "report.docx"]) ∈ (main S s).world.trace →
      (∀ c ∈ convertCalls (main S s).world.trace, c.2.success = true) →
      (convertCalls (main S s).world.trace).map (fun c => c.1.name) =
          ["report.doc", "report.docx"] ∧
        (writes (main S s).world.trace).map Prod.fst =
          [S.join S.OUTPUT_DIR "report.pdf", S.join S.OUTPUT_DIR "report.pdf"] ∧
        summaries (main S s).world.trace =
          [{ total := 2, success := 2, failed := 0, skipped := 0 }]) ∧
    (∀ (d1 d2 : FileDescriptor) (outputDir : String) (w1 w2 : World σ),
      d1.baseName ≠ d2.baseName →
      (convertToPdf S d1 outputDir w1).1.success = true →
      (convertToPdf S d2 outputDir w2).1.success = true →
      (convertToPdf S d1 outputDir w1).1.outputFile ≠
        (convertToPdf S d2 outputDir w2).1.outputFile) ∧
    (writes (main demoSys demoCollision).world.trace =
        [("/app/data/output/report.pdf", [37, 80, 68, 70, 1]),
         ("/app/data/output/report.pdf", [37, 80, 68, 70, 2])] ∧
      (main demoSys demoCollision).world.state.output =
        [("/app/data/output/report.pdf", [37, 80, 68, 70, 2])] ∧
      summaries (main demoSys demoCollision).world.trace =
        [{ total := 2, success := 2, failed := 0, skipped := 0 }]) := by
  have hb1 : basename "report.doc" (extname "report.doc") = "report" := by decide
  have hb2 : basename "report.docx" (extname "report.docx") = "report" := by decide
  have hfiles : supportedFiles S.join S.INPUT_DIR ["report.doc", "report.docx"] =
      [scanMap S.join S.INPUT_DIR "report.doc", scanMap S.join S.INPUT_DIR "report.docx"] := by
    have h1 : scanFilter "report.doc" = true := by decide
    have h2 : scanFilter "report.docx" = true := by decide
    simp [supportedFiles, List.filter, h1, h2]
  refine ⟨⟨by decide, by decide, by decide, hb1, hb2⟩, ?_, ?_, by decide, by decide, by decide⟩
  · intro hread hall
    have hne : supportedFiles S.join S.INPUT_DIR ["report.doc", "report.docx"] ≠ [] := by
      rw [hfiles]
      simp
    rcases (main_cases S s).2 with ⟨_, _, _, _, _, hwork, _⟩ |
      ⟨_, _, _, _, _, _, _, _, hrd, _⟩ |
      ⟨_, _, _, _, _, _, _, _, listing, hrd, hempty, _⟩ |
      ⟨_, _, listing, hrd, _, hsd⟩
    · have := hwork _ hread
      cases this
    · exact absurd hread (hrd _)
    · have hl := (hrd _).mp hread
      rw [← hl] at hempty
      exact absurd hempty hne
    · have hl := (hrd _).mp hread
      subst hl
      obtain ⟨hcalls, hsum, _, _, hwrites⟩ :=
        main_projections_of_scanned S s _ ((hsd _).mpr rfl) hne
      have hfilter : (convertCalls (main S s).world.trace).filter (fun c => c.2.success) =
          convertCalls (main S s).world.trace := by
        rw [List.filter_eq_self]
        exact hall
      have hlen : (convertCalls (main S s).world.trace).length = 2 := by
        rw [← List.length_map (convertCalls (main S s).world.trace) Prod.fst, hcalls, hfiles]
        rfl
      have hsucc : succeeded (convertCalls (main S s).world.trace) = 2 := by
        rw [succeeded, List.countP_eq_length.mpr hall, hlen]
      have hfail : failures (convertCalls (main S s).world.trace) = 0 := by
        have := succeeded_add_failures (convertCalls (main S s).world.trace)
        omega
      have hpaths : (convertCalls (main S s).world.trace).map
            (fun c => S.join S.OUTPUT_DIR (c.1.baseName ++ ".pdf")) =
          ((convertCalls (main S s).world.trace).map Prod.fst).map
            (fun d => S.join S.OUTPUT_DIR (d.baseName ++ ".pdf")) := by
        rw [List.map_map]
        rfl
      have hnames : (convertCalls (main S s).world.trace).map (fun c => c.1.name) =
          ((convertCalls (main S s).world.trace).map Prod.fst).map (fun d => d.name) := by
        rw [List.map_map]
        rfl
      refine ⟨?_, ?_, ?_⟩
      · rw [hnames, hcalls, hfiles]
        rfl
      · rw [hwrites, hfilter, hpaths, hcalls, hfiles]
        simp only [List.map_cons, List.map_nil, scanMap, hb1, hb2]
        rfl
      · rw [hsum, hsucc, hfail, hfiles]
        rfl
  · intro d1 d2 outputDir w1 w2 hne h1 h2 heq
    obtain ⟨_, _, _, hc1⟩ := convertToPdf_spec S d1 outputDir w1
    obtain ⟨_, _, _, hc2⟩ := convertToPdf_spec S d2 outputDir w2
    rcases hc1 with ⟨_, _, hr1, _⟩ | ⟨_, _, hr1, _⟩
    · rcases hc2 with ⟨_, _, hr2, _⟩ | ⟨_, _, hr2, _⟩
      · rw [hr1, hr2] at heq
        simp only [conversionSuccess, Option.some.injEq] at heq
        exact hne (append_pdf_injective _ _ heq)
      · rw [hr2] at h2
        simp [conversionFailure] at h2
    · rw [hr1] at h1
      simp [conversionFailure] at h1

theorem output_name_collision_witness :
    Event.readdir demoSys.INPUT_DIR (.ok ["report.doc", "report.docx"]) ∈
        (main demoSys demoCollision).world.trace ∧
      (∀ c ∈ convertCalls (main demoSys demoCollision).world.trace, c.2.success = true) ∧
      (writes (main demoSys demoCollision).world.trace).map Prod.fst =
        ["/app/data/output/report.pdf", "/app/data/output/report.pdf"] :=
  ⟨by decide, by decide,
    ((output_name_collision demoSys demoCollision).2.1 (by decide) (by decide)).2.1.trans
      (by decide)⟩

end ConvertToPdf
